import Mathlib

/-!
Verification of the Beta-Tester Reaction-Role Onboarding & Approval Pipeline
of the TLDBotto Discord bot, against its natural-language specification.

The Python source is shallowly embedded: each relevant function
(`botto/storage/storage.py`, `botto/storage/beta_testers/model.py`,
`botto/storage/beta_testers/beta_testers_storage.py`,
`botto/storage/config_storage.py`, `botto/mixins/reaction_roles.py`)
becomes an executable Lean definition over explicit state records, and the
chat platform / beta-distribution API are modelled as environment parameters.
Side effects are recorded as explicit effect traces.
-/

namespace Botto

/-! ## Association-list helpers (standing in for Python dicts) -/

/-- Look up a key in an association list (first hit). -/
def alookup {β : Type} (m : List (String × β)) (k : String) : Option β :=
  (m.find? (fun p => p.1 == k)).map (fun p => p.2)

/-- Set a key in an association list: replace in place if present, append otherwise,
mirroring Python dict assignment. -/
def aset {β : Type} (m : List (String × β)) (k : String) (v : β) : List (String × β) :=
  if m.any (fun p => p.1 == k) then
    m.map (fun p => if p.1 == k then (k, v) else p)
  else m ++ [(k, v)]

/-- Join a list of strings with commas, as Python str.join. -/
def joinComma : List String → String
  | [] => ""
  | [x] => x
  | x :: y :: xs => x ++ "," ++ joinComma (y :: xs)

/-- Helper for `splitComma`: split a character list at commas. -/
def splitCommaAux : List Char → List Char → List String
  | [], cur => [String.mk cur.reverse]
  | c :: rest, cur =>
    if c = ',' then String.mk cur.reverse :: splitCommaAux rest []
    else splitCommaAux rest (c :: cur)

/-- Split a comma-joined string back into a list (Python `str.split(",")`); the
sources guard the split behind a falsiness check, so the empty string yields
the empty list. -/
def splitComma (s : String) : List String :=
  if s = "" then [] else splitCommaAux s.data []

/-- Substring test, standing in for the Airtable SEARCH() predicate used by
`find_tester_by_leave_message` and `_fetch_requests_by_further_message_id`. -/
def strContains (hay needle : String) : Bool :=
  decide (needle.data <:+: hay.data)

/-! ## Record-store client (`botto/storage/storage.py`)

`Storage._get` / `Storage._modify` issue one HTTP request and raise
`AirTableError(r.url, await r.json())` whenever `r.status != 200`.
-/

/-- The parsed `error` member of an Airtable error response body
(`AirTableError.__init__` reads `response_dict["error"]`). -/
structure AirErrorBody where
  errorType : String
  errorMessage : String
deriving DecidableEq, Repr

/-- The structured store error (`botto/models.py` `AirTableError`): it keeps the
failing request URL and the fields parsed out of the JSON error body. -/
structure AirTableErr where
  url : String
  errorType : String
  errorMessage : String
deriving DecidableEq, Repr

/-- One HTTP response from the record store: a status code, the error body that
would be parsed on failure, and the payload parsed on success. -/
structure HttpResponse (α : Type) where
  status : Nat
  errorBody : AirErrorBody
  payload : α
deriving DecidableEq, Repr

/-- Response handling shared by `Storage._get` and `Storage._modify`
(`if r.status != 200: raise AirTableError(r.url, await r.json())`). -/
def airtableCheck {α : Type} (url : String) (r : HttpResponse α) : Except AirTableErr α :=
  if r.status ≠ 200 then
    .error { url := url, errorType := r.errorBody.errorType,
             errorMessage := r.errorBody.errorMessage }
  else
    .ok r.payload

/-- One record-store operation: the request trace (the URLs actually contacted;
the source contains no retry loop, so exactly one request is issued) together
with the checked result. -/
def airtableRequest {α : Type} (url : String) (respond : String → HttpResponse α) :
    List String × Except AirTableErr α :=
  ([url], airtableCheck url (respond url))

/-! ## Domain model (`botto/storage/beta_testers/model.py`) -/

/-- Values of Airtable fields used by the pipeline. -/
inductive FieldVal where
  | s (v : String)
  | ls (v : List String)
deriving DecidableEq, Repr

/-- `Tester` dataclass. -/
structure Tester where
  username : String
  discordId : String
  email : Option String := none
  contactEmail : Option String := none
  givenName : Option String := none
  familyName : Option String := none
  fullName : Option String := none
  testingRequests : Option (List String) := none
  id : Option String := none
  registrationMessageId : Option String := none
  leaveMessageIds : List String := []
deriving DecidableEq, Repr

/-- `Tester.to_airtable` with the default field list: `Username` and
`Discord ID` are always written, the optional attributes only when not `None`,
and `Leave Message IDs` (comma-joined) is added last. -/
def Tester.toAirtable (t : Tester) : List (String × FieldVal) :=
  [("Username", .s t.username), ("Discord ID", .s t.discordId)]
  ++ (match t.email with | some v => [("Email", FieldVal.s v)] | none => [])
  ++ (match t.contactEmail with | some v => [("Contact Email", FieldVal.s v)] | none => [])
  ++ (match t.givenName with | some v => [("Given Name", FieldVal.s v)] | none => [])
  ++ (match t.familyName with | some v => [("Family Name", FieldVal.s v)] | none => [])
  ++ (match t.testingRequests with | some v => [("Testing Requests", FieldVal.ls v)] | none => [])
  ++ (match t.registrationMessageId with
      | some v => [("Registration Message ID", FieldVal.s v)] | none => [])
  ++ [("Leave Message IDs", .s (joinComma t.leaveMessageIds))]

/-- Read a string-valued field of a stored record. -/
def getFieldStr (fs : List (String × FieldVal)) (k : String) : Option String :=
  match fs.find? (fun p => p.1 == k) with
  | some (_, .s v) => some v
  | _ => none

/-- Read a list-valued field of a stored record. -/
def getFieldList (fs : List (String × FieldVal)) (k : String) : Option (List String) :=
  match fs.find? (fun p => p.1 == k) with
  | some (_, .ls v) => some v
  | _ => none

/-- Field-level merge performed by the record store on a PATCH upsert
(modelled from the spec of the external store, section 6: write endpoints
accept `{id?, fields}` records; fields present in the payload are written,
fields absent from the payload keep their stored value). -/
def applyPatch (stored patch : List (String × FieldVal)) : List (String × FieldVal) :=
  patch.foldl (fun acc p => aset acc p.1 p.2) stored

/-- `Tester.from_airtable`: rebuild a `Tester` from a stored record. -/
def Tester.fromFields (rid : String) (fs : List (String × FieldVal)) : Tester :=
  { id := some rid
    username := (getFieldStr fs "Username").getD ""
    discordId := (getFieldStr fs "Discord ID").getD ""
    email := getFieldStr fs "Email"
    contactEmail := getFieldStr fs "Contact Email"
    givenName := getFieldStr fs "Given Name"
    familyName := getFieldStr fs "Family Name"
    fullName := getFieldStr fs "Full Name"
    testingRequests := getFieldList fs "Testing Requests"
    registrationMessageId := getFieldStr fs "Registration Message ID"
    leaveMessageIds := splitComma ((getFieldStr fs "Leave Message IDs").getD "") }

/-! ### Lemmas about field patching -/

/-! ## Testers table (`BetaTestersStorage` over the `Testers` Airtable table)

The table is a list of records `(record id, fields)`; `upsert_tester` performs a
PATCH upsert merged on the `Discord ID` field (`Storage._modify` with
`performUpsert`), so fields omitted by `Tester.to_airtable` keep their stored
values.
-/

/-- One stored record: Airtable record id together with its fields. -/
abbrev TesterStore := List (String × List (String × FieldVal))

/-- `fetch_tester`: fetch a tester record by record id. A missing record is
modelled as `none` (matching the `Optional[Tester]` signature; the HTTP layer
surfaces it as an error response). The `cachedmethod` record cache is not
modelled: lookups are deterministic, so it changes no results. -/
def fetchTesterById (testers : TesterStore) (rid : String) : Option Tester :=
  (testers.find? (fun r => r.1 == rid)).map (fun r => Tester.fromFields r.1 r.2)

/-- `find_tester(discord_id=...)`: first record whose `Discord ID` equals the
given id (`AND({Discord ID}='...')`). -/
def findTesterByDiscordId (testers : TesterStore) (u : String) : Option Tester :=
  (testers.find? (fun r => getFieldStr r.2 "Discord ID" == some u)).map
    (fun r => Tester.fromFields r.1 r.2)

/-- `upsert_tester`: PATCH upsert merged on `Discord ID`; returns the modified
tester parsed back from the store (`Tester.from_airtable`). A fresh record id is
assigned when no record matches. -/
def upsertTester (testers : TesterStore) (t : Tester) (freshId : String) :
    TesterStore × Tester :=
  match testers.find? (fun r => getFieldStr r.2 "Discord ID" == some t.discordId) with
  | some r =>
    let fs := applyPatch r.2 t.toAirtable
    (testers.map (fun q => if q.1 == r.1 then (q.1, fs) else q), Tester.fromFields r.1 fs)
  | none =>
    let fs := applyPatch [] t.toAirtable
    (testers ++ [(freshId, fs)], Tester.fromFields freshId fs)

/-- `find_tester_by_leave_message`: `SEARCH('{message_id}', {leave ids field})`,
first hit. -/
def findTesterByLeaveMessage (testers : TesterStore) (mid : String) : Option Tester :=
  (testers.find? (fun r =>
      strContains ((getFieldStr r.2 "Leave Message IDs").getD "") mid)).map
    (fun r => Tester.fromFields r.1 r.2)

/-! ## Remaining domain model (`botto/storage/beta_testers/model.py`) -/

/-- `RequestStatus` string enum. -/
inductive RequestStatus where
  | approved
  | rejected
deriving DecidableEq, Repr

/-- `TestingRequest` dataclass (`_approved` is `approvedF`). -/
structure TestingRequest where
  tester : String
  testerDiscordId : String
  app : String
  serverId : String
  appName : Option String := none
  approvedF : Option Bool := none
  status : Option RequestStatus := none
  notifId : Option String := none
  furtherIds : Option (List String) := none
  approvalChannelId : Option String := none
  appRRids : Option (List String) := none
  created : Option Int := none
  id : Option String := none
  removed : Option Bool := none
deriving DecidableEq, Repr

/-- The read-only property `TestingRequest.approved`:
`self._approved is True or self.status == RequestStatus.APPROVED`.
The dataclass defines no setter for it. -/
def TestingRequest.approved (r : TestingRequest) : Bool :=
  r.approvedF == some true || r.status == some .approved

/-- `App` dataclass. -/
structure App where
  id : String
  name : String
  approvalChannel : Option String
  reactionRoleIds : List String
  appStoreKeyId : Option String
  betaGroupId : Option String
deriving DecidableEq, Repr

/-- `fetch_app` by record id (again `Optional`; record cache unmodelled). -/
def findAppById (apps : List App) (rid : String) : Option App :=
  apps.find? (fun a => a.id == rid)

/-- `find_apps_by_beta_group`: `OR({Beta Group ID}='g1', ...)`. -/
def findAppsByBetaGroup (apps : List App) (gids : List String) : List App :=
  apps.filter (fun a => gids.any (fun g => a.betaGroupId == some g))

/-- `ReactionRole` dataclass. -/
structure ReactionRole where
  id : String
  serverId : String
  messageId : String
  reactionName : String
  roleId : String
  appIds : List String
  requiresRulesApproval : Bool
deriving DecidableEq, Repr

/-- A beta-distribution API tester (`AppStoreConnectClient.BetaTester`). -/
structure BetaTester where
  id : String
  email : Option String
  betaGroupIds : List String
deriving DecidableEq, Repr

/-! ## Testing-requests table

One stored row of the `tblvxW011j0EZLsCq` table. `Tester Discord ID`,
`App Name`, `Approval Channel` and `App Reaction Role IDs` are Airtable lookup
fields computed by the store from the linked `Tester` and `App` records; the
model recomputes them whenever the row is written. `Removed` and `Approved` are
checkboxes (absent means false); `Further Notification Message IDs` is a text
field holding a comma-joined list. -/
structure RequestRow where
  id : String
  testerLink : String
  testerDiscordId : String
  appLink : String
  appName : String
  approvedF : Option Bool := none
  status : Option RequestStatus := none
  notifId : Option String := none
  furtherIds : Option String := none
  approvalChannel : Option String := none
  appRRids : List String := []
  serverId : String
  created : Int
  removed : Bool := false
deriving DecidableEq, Repr

/-- `TestingRequest.from_airtable` applied to a stored row. -/
def TestingRequest.fromRow (row : RequestRow) : TestingRequest :=
  { tester := row.testerLink
    testerDiscordId := row.testerDiscordId
    app := row.appLink
    serverId := row.serverId
    appName := some row.appName
    approvedF := row.approvedF
    status := row.status
    notifId := row.notifId
    furtherIds := (match row.furtherIds with
      | some s => if s = "" then none else some (splitComma s)
      | none => none)
    approvalChannelId := row.approvalChannel
    appRRids := if row.appRRids = [] then none else some row.appRRids
    created := some row.created
    id := some row.id
    removed := some row.removed }

/-- The stored row created by `add_request` (`_insert` of
`TestingRequest.to_airtable`, with the store filling in record id, `Created`,
and the lookup fields; `to_airtable` omits `Approved`, `Status`,
`Notification Message ID`, `Further Notification Message IDs` when `None` and
writes `Removed` only when it is truthy). -/
def requestRowOfInsert (testers : TesterStore) (apps : List App) (r : TestingRequest)
    (newId : String) (now : Int) : RequestRow :=
  { id := newId
    testerLink := r.tester
    testerDiscordId := ((fetchTesterById testers r.tester).map (fun t => t.discordId)).getD ""
    appLink := r.app
    appName := ((findAppById apps r.app).map (fun a => a.name)).getD ""
    approvedF := r.approvedF
    status := r.status
    notifId := r.notifId
    furtherIds := r.furtherIds.map joinComma
    approvalChannel := (findAppById apps r.app).bind (fun a => a.approvalChannel)
    appRRids := ((findAppById apps r.app).map (fun a => a.reactionRoleIds)).getD []
    serverId := r.serverId
    created := now
    removed := r.removed == some true }

/-- The PATCH performed by `update_request` on an existing row: fields written
by `TestingRequest.to_airtable` replace the stored ones, omitted fields keep
their stored values, and the store recomputes the lookup fields from the
(possibly re-linked) records. -/
def patchRequestRow (testers : TesterStore) (apps : List App) (row : RequestRow)
    (r : TestingRequest) : RequestRow :=
  { row with
    testerLink := r.tester
    testerDiscordId := ((fetchTesterById testers r.tester).map (fun t => t.discordId)).getD ""
    appLink := r.app
    appName := ((findAppById apps r.app).map (fun a => a.name)).getD ""
    approvalChannel := (findAppById apps r.app).bind (fun a => a.approvalChannel)
    appRRids := ((findAppById apps r.app).map (fun a => a.reactionRoleIds)).getD []
    approvedF := (match r.approvedF with | some b => some b | none => row.approvedF)
    status := (match r.status with | some s => some s | none => row.status)
    serverId := r.serverId
    notifId := (match r.notifId with | some v => some v | none => row.notifId)
    furtherIds := (match r.furtherIds with
      | some l => some (joinComma l) | none => row.furtherIds)
    removed := if r.removed == some true then true else row.removed }

/-- `update_request` over the whole table (the row with the request's record id
is patched). -/
def updateRequestRows (testers : TesterStore) (apps : List App) (rows : List RequestRow)
    (r : TestingRequest) : List RequestRow :=
  match r.id with
  | none => rows
  | some rid =>
    rows.map (fun row => if row.id == rid then patchRequestRow testers apps row r else row)

/-- `RequestApprovalFilter`. -/
inductive RequestApprovalFilter where
  | all
  | approved
  | unapproved
deriving DecidableEq, Repr

/-- The `filterByFormula` built by `list_requests`:
`AND({Tester Discord ID}=tid [,OR({App Record ID}='a1',...)]
[,OR({Approved}=...,{Status}=...)] [,{Removed}=FALSE()])`.
The app-id disjunction is added only when the iterable is non-empty (Python
truthiness of `app_ids`). -/
def rowMatches (tid : String) (appIds : Option (List String))
    (af : RequestApprovalFilter) (exclRemoved : Bool) (row : RequestRow) : Bool :=
  row.testerDiscordId == tid
  && (match appIds with
      | some ids => if ids = [] then true else ids.any (fun a => row.appLink == a)
      | none => true)
  && (match af with
      | .all => true
      | .unapproved => (row.approvedF != some true) || (row.status == none)
      | .approved => (row.approvedF == some true) || (row.status == some .approved))
  && (!exclRemoved || row.removed == false)

/-- Stable-enough insertion into a list sorted ascending by `Created`. -/
def insertByCreated (x : RequestRow) : List RequestRow → List RequestRow
  | [] => [x]
  | y :: ys => if y.created ≤ x.created then y :: insertByCreated x ys else x :: y :: ys

/-- Sorting by the `Created` field ascending (the `sort=["Created"]` parameter of
`list_requests`). -/
def sortByCreated (l : List RequestRow) : List RequestRow :=
  l.foldr insertByCreated []

/-- `list_requests`: filter the table by the formula, sorted by `Created`,
records parsed through `TestingRequest.from_airtable`. -/
def listRequests (rows : List RequestRow) (tid : String) (appIds : Option (List String))
    (af : RequestApprovalFilter) (exclRemoved : Bool) : List TestingRequest :=
  ((sortByCreated rows).filter (rowMatches tid appIds af exclRemoved)).map
    TestingRequest.fromRow

/-- `_fetch_request_by_original_message_id` then
`_fetch_requests_by_further_message_id` (`fetch_request`): first row whose
`Notification Message ID` equals the message id, else first row whose
`Further Notification Message IDs` contains it, else nothing. -/
def fetchRequest (rows : List RequestRow) (mid : String) : Option TestingRequest :=
  match rows.find? (fun row => row.notifId == some mid) with
  | some row => some (TestingRequest.fromRow row)
  | none =>
    (rows.find? (fun row => strContains (row.furtherIds.getD "") mid)).map
      TestingRequest.fromRow

/-! ## Config storage (`botto/storage/config_storage.py`) -/

/-- `ConfigEntry` (`botto/models.py`). -/
structure ConfigEntry where
  serverId : String
  configKey : String
  value : String
deriving DecidableEq, Repr

/-- `ConfigStorage` state: the backing `Config` table, the per-guild config
cache, the negative cache of keys confirmed absent, and whether the negative
cache's `asyncio.Lock` is currently held (held forever by a task that
deadlocked inside `refresh_cache`). -/
structure ConfigState where
  store : List ConfigEntry
  cache : List (String × List (String × ConfigEntry)) := []
  neg : List (String × List String) := []
  negLockHeld : Bool := false
deriving DecidableEq, Repr

/-- Cache lookup for one (server, key). -/
def cacheGet (cs : ConfigState) (s k : String) : Option ConfigEntry :=
  (alookup cs.cache s).bind (fun sc => alookup sc k)

/-- Negative-cache membership for one (server, key). -/
def negHas (cs : ConfigState) (s k : String) : Bool :=
  match alookup cs.neg s with
  | some ks => ks.contains k
  | none => false

/-- The store-side result of the `AND({Server ID}='s',{Key}='k')` iteration:
`retrieve_config` writes every matching entry into the server's cache dict
keyed by `config_key`, so the entry it returns is the last match. -/
def cfgStoreLookup (store : List ConfigEntry) (s k : String) : Option ConfigEntry :=
  (store.filter (fun e => e.serverId == s && e.configKey == k)).getLast?

/-- Add a key to the negative cache (`setdefault(server, set()).add(key)`). -/
def negAdd (neg : List (String × List String)) (s k : String) :
    List (String × List String) :=
  let ks := (alookup neg s).getD []
  aset neg s (if ks.contains k then ks else ks ++ [k])

/-- `retrieve_config(server_id, key)`: iterate the matching store entries into
the server's cached dict and return the entry; on `KeyError` (no match) record
the key in the negative cache — acquiring the negative-cache lock, which blocks
forever (`none`) when that lock is already held, as happens when called from
inside `refresh_cache`'s negative-cache loop. -/
def retrieveConfig (cs : ConfigState) (s k : String) :
    Option (ConfigState × Option ConfigEntry) :=
  match cfgStoreLookup cs.store s k with
  | some e =>
    let sc := aset ((alookup cs.cache s).getD []) k e
    some ({ cs with cache := aset cs.cache s sc }, some e)
  | none =>
    let sc := (alookup cs.cache s).getD []
    let cs1 := { cs with cache := aset cs.cache s sc }
    if cs.negLockHeld then none
    else some ({ cs1 with neg := negAdd cs1.neg s k }, none)

/-- `get_config(server_id, key)`: serve `None` from the negative cache (only
when its lock is free), then the config cache, else fall back to
`retrieve_config` (which can block as above). -/
def getConfigC (cs : ConfigState) (s k : String) :
    Option (ConfigState × Option ConfigEntry) :=
  if !cs.negLockHeld && negHas cs s k then some (cs, none)
  else match cacheGet cs s k with
    | some e => some (cs, some e)
    | none => retrieveConfig cs s k

/-- Result of a `refresh_cache` run: completed, or hung forever on the
negative-cache lock (carrying the state at the moment it blocked, with the
lock still held). -/
inductive CfgRefreshResult where
  | done (cs : ConfigState)
  | blocked (cs : ConfigState)
deriving DecidableEq, Repr

/-- One key re-validation inside phase 1 of `refresh_cache`. -/
def phase1KeyStep (s : String) (acc : CfgRefreshResult) (kv : String × ConfigEntry) :
    CfgRefreshResult :=
  match acc with
  | .blocked c => .blocked c
  | .done c =>
    match retrieveConfig c s kv.1 with
    | some (c3, _) => .done c3
    | none => .blocked c

/-- One cached server's re-validation inside phase 1 of `refresh_cache`. -/
def phase1ServerStep (acc : CfgRefreshResult) (sv : String × List (String × ConfigEntry)) :
    CfgRefreshResult :=
  match acc with
  | .blocked c => .blocked c
  | .done c => sv.2.foldl (phase1KeyStep sv.1) (.done c)

/-- Phase 1 of `refresh_cache`: re-validate every already-cached (server, key)
through `retrieve_config`. -/
def refreshPhase1 (cs : ConfigState) : CfgRefreshResult :=
  cs.cache.foldl phase1ServerStep (.done cs)

/-- Phase 2 of `refresh_cache` for one server: re-check each negative-cached key
while holding the negative-cache lock; a key that still does not exist makes the
nested `retrieve_config` block on that same (non-reentrant) lock forever;
keys found to exist are collected and afterwards removed from the negative
cache. -/
def negRecheckStep (s : String) (acc : Except ConfigState (ConfigState × List String))
    (k : String) : Except ConfigState (ConfigState × List String) :=
  match acc with
  | .error c => .error c
  | .ok (c, rem) =>
    if c.negLockHeld then .error c
    else
      let c1 := { c with negLockHeld := true }
      match retrieveConfig c1 s k with
      | none => .error c1
      | some (c2, some _) => .ok ({ c2 with negLockHeld := false }, rem ++ [k])
      | some (c2, none) => .ok ({ c2 with negLockHeld := false }, rem)

def refreshNegServer (cs : ConfigState) (s : String) (ks : List String) :
    CfgRefreshResult :=
  match ks.foldl (negRecheckStep s) (Except.ok (cs, ([] : List String))) with
  | .error c => .blocked c
  | .ok (c, rem) =>
    .done { c with
      neg := aset c.neg s (((alookup c.neg s).getD []).filter
        (fun k => !rem.contains k)) }

/-- One server's negative-cache re-check inside phase 2. -/
def phase2Step (acc : CfgRefreshResult) (sv : String × List String) : CfgRefreshResult :=
  match acc with
  | .blocked c => CfgRefreshResult.blocked c
  | .done c => refreshNegServer c sv.1 sv.2

/-- Phase 2 of `refresh_cache` over all servers of the negative cache. -/
def refreshPhase2 (cs : ConfigState) : CfgRefreshResult :=
  cs.neg.foldl phase2Step (.done cs)

/-- `ConfigStorage.refresh_cache`: phase 1 then phase 2. -/
def refreshCache (cs : ConfigState) : CfgRefreshResult :=
  match refreshPhase1 cs with
  | .blocked c => .blocked c
  | .done c => refreshPhase2 c

/-! ## Pipeline state, effects and environment (`botto/mixins/reaction_roles.py`) -/

/-- The per-message reaction-role cache (`reaction_roles_cache`, nested
server → message → reaction dicts, flattened to one keyed map). -/
abbrev RRCache := List ((String × String × String) × ReactionRole)

def rrCacheGet (cache : RRCache) (s m r : String) : Option ReactionRole :=
  (cache.find? (fun p => p.1 == (s, m, r))).map (fun p => p.2)

def rrCacheSet (cache : RRCache) (s m r : String) (v : ReactionRole) : RRCache :=
  if cache.any (fun p => p.1 == (s, m, r)) then
    cache.map (fun p => if p.1 == (s, m, r) then ((s, m, r), v) else p)
  else cache ++ [((s, m, r), v)]

/-- The mutable state reachable from the pipeline: the four backing store
tables, the `BetaTestersStorage` caches (`reaction_roles_cache`,
`watched_message_ids`, `approvals_channel_ids`), the testflight
`ConfigStorage`, and the `ReactionRoles.role_approvals_channels_cache` TTL
entries for the two config keys the pipeline reads through it (TTL expiry
itself is not exercised by the claims). -/
structure BetaState where
  rrStore : List ReactionRole := []
  apps : List App := []
  testers : TesterStore := []
  rows : List RequestRow := []
  rrCache : RRCache := []
  watched : List String := []
  approvalsChannelIds : List String := []
  cfg : ConfigState := { store := [] }
  ttlApprovals : List (String × Option String) := []
  ttlRuleRole : List (String × Option String) := []
deriving DecidableEq, Repr

/-- Category of a channel message sent by the engines. -/
inductive MsgTag where
  | notification (isRepeat : Bool)
  | noRequestFound
  | testerNotFound
  | appFetchFailed
  | noTestersWithEmail
  | multipleTesters
  | noTesterForLeave
deriving DecidableEq, Repr

/-- Observable side effects: record-store calls, chat-platform calls, and
beta-distribution API calls, in program order. -/
inductive Effect where
  | storeListWatched
  | storeListApprovalChannels
  | storeFetchRR (s m r : String)
  | storeGetConfig (s k : String)
  | storeFindTester (discordId : String)
  | storeFindTesterByLeave (mid : String)
  | storeFetchTester (rid : String)
  | storeFetchApp (rid : String)
  | storeFindAppsByGroup (gids : List String)
  | storeListRequests (tid : String) (appIds : List String)
  | storeFetchRequest (mid : String)
  | storeUpsertTester (discordId : String)
  | storeAddRequest (testerLink appLink : String)
  | storeUpdateRequest (rid : String)
  | storeUpdateRequests (rids : List String)
  | chatFetchMessage (mid : String)
  | dmRules (userId : String)
  | dmRegistration (userId mid : String)
  | dmApproval (userId : String)
  | sendMessage (channelId : String) (tag : MsgTag) (refMsg : Option String)
  | addRole (userId roleId : String)
  | addRoles (userId : String) (roleIds : List String)
  | addReaction (mid emoji : String)
  | removeReaction (mid emoji : String)
  | betaFindTesters (email : Option String)
  | betaCreateTester (email : String) (groupId : String)
  | betaDeleteTester (testerId : String)
deriving DecidableEq, Repr

/-- Record-store calls (reads and writes). -/
def Effect.isStoreCall : Effect → Bool
  | .storeListWatched | .storeListApprovalChannels | .storeFetchRR .. | .storeGetConfig ..
  | .storeFindTester .. | .storeFindTesterByLeave .. | .storeFetchTester ..
  | .storeFetchApp .. | .storeFindAppsByGroup .. | .storeListRequests ..
  | .storeFetchRequest .. | .storeUpsertTester .. | .storeAddRequest ..
  | .storeUpdateRequest .. | .storeUpdateRequests .. => true
  | _ => false

/-- Record-store writes. -/
def Effect.isStoreWrite : Effect → Bool
  | .storeUpsertTester .. | .storeAddRequest .. | .storeUpdateRequest ..
  | .storeUpdateRequests .. => true
  | _ => false

/-- Chat-platform writes: messages sent, DMs, reactions added or removed, role
changes. -/
def Effect.isChatWrite : Effect → Bool
  | .dmRules .. | .dmRegistration .. | .dmApproval .. | .sendMessage ..
  | .addRole .. | .addRoles .. | .addReaction .. | .removeReaction .. => true
  | _ => false

/-- Beta-distribution API calls that mutate remote state. -/
def Effect.isBetaWrite : Effect → Bool
  | .betaCreateTester .. | .betaDeleteTester .. => true
  | _ => false

/-- How a handler invocation ended: normal return, an uncaught Python
exception, or an `await` that never completes (deadlocked lock). -/
inductive CrashReason where
  | approvedSetterMissing
  | appNoneBetaGroup
  | approvalChannelNone
  | createdNone
  | missingRecordId
deriving DecidableEq, Repr

inductive Outcome where
  | ok
  | crashed (r : CrashReason)
  | blocked
deriving DecidableEq, Repr

/-- Handler result: final state, effect trace, outcome. -/
abbrev HRes := BetaState × List Effect × Outcome

/-- The chat platform and beta-distribution API, plus the two value parsers
standing in for `ConfigEntry.parsed_value` — code of this repository referenced
at `reaction_roles.py` lines 136/147/154 but not present under `src/`, modelled
from the spec: the stored config value parses into the approval/removal emoji
set, respectively into the rule-agreement channel/message pair. -/
structure ChatEnv where
  guilds : List String
  guildHasChannel : String → String → Bool
  channelKnown : String → Bool
  guildHasRole : String → String → Bool
  memberHasRole : String → String → Bool
  msgCreatedAt : String → Int
  msgAuthorIsBot : String → Bool
  msgCached : String → Bool
  parseEmojiList : String → List String
  parseAgreement : String → Option (String × String)
  betaTesters : Option String → Option String → List BetaTester

/-- A `RawReactionActionEvent` together with the clock and the ids the chat
platform would assign to messages created while handling it. -/
structure ReactionEvent where
  eventType : String := "REACTION_ADD"
  messageId : String
  channelId : String
  guildId : Option String
  userId : String
  userName : String := ""
  memberPresent : Bool := true
  emojiName : String
  now : Int := 0
  freshDmId : String := ""
  freshNotifId : String := ""
  freshTesterId : String := ""
  freshRequestId : String := ""
deriving DecidableEq, Repr

def processingEmoji : String := "⏳"

/-- `get_config` as seen from the pipeline: negative cache (when its lock is
free), then config cache, then `retrieve_config` (a store read); `none` when
the call blocks on the negative-cache lock. -/
def getCfg (st : BetaState) (s k : String) :
    Option (BetaState × List Effect × Option ConfigEntry) :=
  if !st.cfg.negLockHeld && negHas st.cfg s k then some (st, [], none)
  else match cacheGet st.cfg s k with
    | some e => some (st, [], some e)
    | none =>
      match retrieveConfig st.cfg s k with
      | none => none
      | some (cs1, v) => some ({ st with cfg := cs1 }, [.storeGetConfig s k], v)

/-- `get_default_approvals_channel_id` (TTL-cached over `get_config`). -/
def getDefaultApprovalsChannelId (st : BetaState) (g : String) :
    Option (BetaState × List Effect × Option String) :=
  match alookup st.ttlApprovals g with
  | some v => some (st, [], v)
  | none =>
    match getCfg st g "default_approvals_channel" with
    | none => none
    | some (st1, effs, entOpt) =>
      let v := entOpt.map (fun e => e.value)
      some ({ st1 with ttlApprovals := aset st1.ttlApprovals g v }, effs, v)

/-- `get_rule_agreement_role_id` (TTL-cached over `get_config`). -/
def getRuleAgreementRoleId (st : BetaState) (g : String) :
    Option (BetaState × List Effect × Option String) :=
  match alookup st.ttlRuleRole g with
  | some v => some (st, [], v)
  | none =>
    match getCfg st g "rule_agreement_role" with
    | none => none
    | some (st1, effs, entOpt) =>
      let v := entOpt.map (fun e => e.value)
      some ({ st1 with ttlRuleRole := aset st1.ttlRuleRole g v }, effs, v)

/-- `get_rule_agreement_message`: config entry parsed into (channel, message). -/
def getRuleAgreementMessage (env : ChatEnv) (st : BetaState) (g : String) :
    Option (BetaState × List Effect × Option (String × String)) :=
  match getCfg st g "rule_agreement_message" with
  | none => none
  | some (st1, effs, some e) => some (st1, effs, env.parseAgreement e.value)
  | some (st1, effs, none) => some (st1, effs, none)

/-- `get_approval_emojis`: config entry parsed into the emoji set, empty when
the entry is absent. -/
def getApprovalEmojis (env : ChatEnv) (st : BetaState) (g : String) :
    Option (BetaState × List Effect × List String) :=
  match getCfg st g "approval_emojis" with
  | none => none
  | some (st1, effs, some e) => some (st1, effs, env.parseEmojiList e.value)
  | some (st1, effs, none) => some (st1, effs, [])

/-- `get_removal_emojis`. -/
def getRemovalEmojis (env : ChatEnv) (st : BetaState) (g : String) :
    Option (BetaState × List Effect × List String) :=
  match getCfg st g "removal_emojis" with
  | none => none
  | some (st1, effs, some e) => some (st1, effs, env.parseEmojiList e.value)
  | some (st1, effs, none) => some (st1, effs, [])

/-- `list_watched_message_ids`: list the `Message ID` column of the Reaction
Roles table and replace the watched set. -/
def listWatchedMessageIds (st : BetaState) : BetaState × List Effect × List String :=
  let ids := st.rrStore.map (fun r => r.messageId)
  ({ st with watched := ids }, [.storeListWatched], ids)

/-- `list_approvals_channel_ids`: apps with a non-empty `Approval Channel`. -/
def listApprovalsChannelIds (st : BetaState) : BetaState × List Effect :=
  ({ st with approvalsChannelIds := st.apps.filterMap (fun a => a.approvalChannel) },
   [.storeListApprovalChannels])

/-- `ReactionRoles.refresh_reaction_role_caches` (the scheduled job). -/
def refreshReactionRoleCaches (st : BetaState) : BetaState × List Effect :=
  let w := listWatchedMessageIds st
  let a := listApprovalsChannelIds w.1
  (a.1, w.2.1 ++ a.2)

/-- Store side of `_fetch_reaction`: first record matching
`AND({Server ID}=..,{Message ID}=..,{Reaction}=..)`. -/
def lookupStoreRR (rrs : List ReactionRole) (s m r : String) : Option ReactionRole :=
  (rrs.filter (fun x => x.serverId == s && x.messageId == m && x.reactionName == r)).head?

/-- `get_reaction_role`: cache hit, else `_fetch_reaction` (store read, caching
the mapping and adding the message to the watched set on success). -/
def getReactionRole (st : BetaState) (s m r : String) :
    BetaState × List Effect × Option ReactionRole :=
  match rrCacheGet st.rrCache s m r with
  | some rr => (st, [], some rr)
  | none =>
    match lookupStoreRR st.rrStore s m r with
    | none => (st, [.storeFetchRR s m r], none)
    | some rr =>
      ({ st with rrCache := rrCacheSet st.rrCache s m r rr,
                 watched := if st.watched.contains m then st.watched
                            else st.watched ++ [m] },
       [.storeFetchRR s m r], some rr)

/-! ## Onboarding engine (`handle_role_reaction`, lines 157–304) -/

/-- Tail of `send_request_notification_message` once the approval channel is
resolved: build the text (a repeat message reads `request.created.datetime`,
an `AttributeError` when `created` is `None`), send it, record the returned
message id on the request (primary or appended to the duplicates), persist via
`update_request` (which raises `MissingRecordIDError` on a record without id). -/
def notifyAfterChannel (st : BetaState) (effs : List Effect) (ev : ReactionEvent)
    (request : TestingRequest) (isRepeat : Bool) (cid : String) : HRes :=
  if isRepeat && request.created == none then (st, effs, .crashed .createdNone)
  else
    let effs := effs ++ [.sendMessage cid (.notification isRepeat) none]
    let request1 :=
      if !isRepeat then { request with notifId := some ev.freshNotifId }
      else { request with furtherIds := some ((request.furtherIds.getD []) ++ [ev.freshNotifId]) }
    match request1.id with
    | none => (st, effs, .crashed .missingRecordId)
    | some rid =>
      ({ st with rows := updateRequestRows st.testers st.apps st.rows request1 },
       effs ++ [.storeUpdateRequest rid], .ok)

/-- `send_request_notification_message`: resolve the approval channel (the
request's own channel id — unchecked `get_channel`, an `AttributeError` later
when the client does not know it — else the guild default, else log and
return), then send and persist. -/
def sendRequestNotification (env : ChatEnv) (st : BetaState) (effs : List Effect)
    (ev : ReactionEvent) (request : TestingRequest) (isRepeat : Bool) : HRes :=
  match request.approvalChannelId with
  | some cid =>
    if env.channelKnown cid then notifyAfterChannel st effs ev request isRepeat cid
    else (st, effs, .crashed .approvalChannelNone)
  | none =>
    match getDefaultApprovalsChannelId st request.serverId with
    | none => (st, effs, .blocked)
    | some (st1, e1, some cid) =>
      if env.channelKnown cid then notifyAfterChannel st1 (effs ++ e1) ev request isRepeat cid
      else (st1, effs ++ e1, .ok)
    | some (st1, e1, none) => (st1, effs ++ e1, .ok)

/-- Lines 283–289: send the registration-prompt DM and record its message id on
the tester (persisted through `upsert_tester`), then return. -/
def sendRegistrationFlow (st : BetaState) (effs : List Effect) (ev : ReactionEvent)
    (tester : Tester) : HRes :=
  let effs := effs ++ [.dmRegistration ev.userId ev.freshDmId]
  let t1 := { tester with registrationMessageId := some ev.freshDmId }
  let upsert := upsertTester st.testers t1 ev.freshTesterId
  ({ st with testers := upsert.1 }, effs ++ [.storeUpsertTester t1.discordId], .ok)

/-- Lines 269–289: the no-email branch — skip when a registration prompt was
sent within the last 30 minutes (the previous prompt message is fetched to read
its timestamp), otherwise send a fresh prompt; either way the handler returns. -/
def registrationBranch (env : ChatEnv) (st : BetaState) (effs : List Effect)
    (ev : ReactionEvent) (tester : Tester) : HRes :=
  match tester.registrationMessageId with
  | some rid =>
    let effs := effs ++ [.chatFetchMessage rid]
    if env.msgCreatedAt rid > ev.now - 30 then (st, effs, .ok)
    else sendRegistrationFlow st effs ev tester
  | none => sendRegistrationFlow st effs ev tester

/-- Lines 218–232: mapping with no associated app — grant the configured role
directly (skipped when the member already holds it); a role the guild does not
know is logged and ignored. -/
def plainRolePhase (env : ChatEnv) (st : BetaState) (effs : List Effect)
    (ev : ReactionEvent) (rr : ReactionRole) (g : String) : HRes :=
  if !env.guildHasRole g rr.roleId then (st, effs, .ok)
  else if !env.memberHasRole ev.userId rr.roleId then
    (st, effs ++ [.addRole ev.userId rr.roleId], .ok)
  else (st, effs, .ok)

/-- Lines 234–304: the per-user-locked section — find-or-create the tester
(refreshing username and discord id via upsert), list active requests for
(tester, mapping apps), create one when none exists, then either the
registration branch (no email) or the approval-channel notification. -/
def gatedPhase (env : ChatEnv) (st : BetaState) (effs : List Effect)
    (ev : ReactionEvent) (rr : ReactionRole) (g : String) (a : String) : HRes :=
  let effs := effs ++ [.storeFindTester ev.userId]
  let found := findTesterByDiscordId st.testers ev.userId
  let t0 : Tester :=
    match found with
    | none => { username := ev.userName, discordId := ev.userId }
    | some t => { t with username := ev.userName, discordId := ev.userId }
  let upsert := upsertTester st.testers t0 ev.freshTesterId
  let tester := upsert.2
  let st1 := { st with testers := upsert.1 }
  let effs := effs ++ [.storeUpsertTester ev.userId]
  let existing := listRequests st1.rows tester.discordId (some rr.appIds) .all true
  let effs := effs ++ [.storeListRequests tester.discordId rr.appIds]
  let afterAdd : BetaState × List Effect × Option TestingRequest :=
    if existing.isEmpty then
      let req0 : TestingRequest :=
        { tester := tester.id.getD "", testerDiscordId := tester.discordId,
          app := a, serverId := g }
      let row := requestRowOfInsert st1.testers st1.apps req0 ev.freshRequestId ev.now
      ({ st1 with rows := st1.rows ++ [row] },
       effs ++ [.storeAddRequest req0.tester a], some (TestingRequest.fromRow row))
    else (st1, effs, none)
  match afterAdd with
  | (st2, effs2, newReq) =>
    if tester.email == none then registrationBranch env st2 effs2 ev tester
    else
      match newReq with
      | some req => sendRequestNotification env st2 effs2 ev req false
      | none =>
        match existing.getLast? with
        | some lastReq => sendRequestNotification env st2 effs2 ev lastReq true
        | none => (st2, effs2, .ok)

/-- Lines 186–216: the user has not agreed to the rules — DM an explanation
(with a link when the configured rules message's channel is known; a configured
channel the guild does not know aborts without a DM). -/
def rulesDmBranch (env : ChatEnv) (st : BetaState) (effs : List Effect)
    (ev : ReactionEvent) (g : String) : HRes :=
  match getRuleAgreementMessage env st g with
  | none => (st, effs, .blocked)
  | some (st1, e1, some chMsg) =>
    if env.guildHasChannel g chMsg.1 then (st1, effs ++ e1 ++ [.dmRules ev.userId], .ok)
    else (st1, effs ++ e1, .ok)
  | some (st1, e1, none) => (st1, effs ++ e1 ++ [.dmRules ev.userId], .ok)

/-- Dispatch on `reaction_role.app_ids` (line 218): plain-role fast path for an
empty list, the app-gated phase otherwise. -/
def contAppPhase (env : ChatEnv) (st : BetaState) (effs : List Effect)
    (ev : ReactionEvent) (rr : ReactionRole) (g : String) : HRes :=
  match rr.appIds with
  | [] => plainRolePhase env st effs ev rr g
  | a :: _ => gatedPhase env st effs ev rr g a

/-- `ReactionRoles.handle_role_reaction` (lines 157–304). -/
def handleRoleReaction (env : ChatEnv) (st : BetaState) (ev : ReactionEvent) : HRes :=
  match (if st.watched.isEmpty then listWatchedMessageIds st else (st, [], st.watched)) with
  | (st1, e1, watched) =>
    if !watched.contains ev.messageId then (st1, e1, .ok)
    else if !ev.memberPresent then (st1, e1, .ok)
    else
      match ev.guildId with
      | none => (st1, e1, .ok)
      | some g =>
        if !env.guilds.contains g then (st1, e1, .ok)
        else
          match getReactionRole st1 g ev.messageId ev.emojiName with
          | (st2, e2, none) => (st2, e1 ++ e2, .ok)
          | (st2, e2, some rr) =>
            if rr.requiresRulesApproval then
              match getRuleAgreementRoleId st2 g with
              | none => (st2, e1 ++ e2, .blocked)
              | some (st3, e3, some rid) =>
                if env.memberHasRole ev.userId rid then
                  contAppPhase env st3 (e1 ++ e2 ++ e3) ev rr g
                else rulesDmBranch env st3 (e1 ++ e2 ++ e3) ev g
              | some (st3, e3, none) => contAppPhase env st3 (e1 ++ e2 ++ e3) ev rr g
            else contAppPhase env st2 (e1 ++ e2) ev rr g

/-! ## Approval engine (`handle_role_approval`, lines 388–558) -/

/-- `is_approval_channel`: the cached per-app approval channels, else the guild
default. -/
def isApprovalChannelQ (st : BetaState) (cid g : String) :
    Option (BetaState × List Effect × Bool) :=
  if st.approvalsChannelIds.contains cid then some (st, [], true)
  else
    match getDefaultApprovalsChannelId st g with
    | none => none
    | some (st1, effs, v) => some (st1, effs, v == some cid)

/-- `ReactionRoles.handle_role_approval`. After resolving request, tester and
app, line 448 executes `testing_request.approved = True`; `approved` is a
getter-only property of `TestingRequest`, so the assignment raises
`AttributeError` and lines 450–558 of the source are unreachable. -/
def handleRoleApproval (env : ChatEnv) (st : BetaState) (ev : ReactionEvent) : HRes :=
  match ev.guildId with
  | none => (st, [], .ok)
  | some g =>
    match isApprovalChannelQ st ev.channelId g with
    | none => (st, [], .blocked)
    | some (st1, e1, isAppr) =>
      if !isAppr then (st1, e1, .ok)
      else if !env.guilds.contains g then (st1, e1, .ok)
      else
        let eFetch := if env.msgCached ev.messageId then []
                      else [Effect.chatFetchMessage ev.messageId]
        if !env.msgAuthorIsBot ev.messageId then (st1, e1 ++ eFetch, .ok)
        else
          match getApprovalEmojis env st1 g with
          | none => (st1, e1 ++ eFetch, .blocked)
          | some (st2, e2, emojis) =>
            if !emojis.contains ev.emojiName then (st2, e1 ++ eFetch ++ e2, .ok)
            else
              let effs := e1 ++ eFetch ++ e2 ++ [.storeFetchRequest ev.messageId]
              match fetchRequest st2.rows ev.messageId with
              | none =>
                (st2, effs ++ [.sendMessage ev.channelId .noRequestFound (some ev.messageId)],
                 .ok)
              | some req =>
                let effs := effs ++ [.storeFetchTester req.tester]
                match fetchTesterById st2.testers req.tester with
                | none =>
                  (st2, effs ++ [.sendMessage ev.channelId .testerNotFound (some ev.messageId)],
                   .ok)
                | some _tester =>
                  let effs := effs ++ [.storeFetchApp req.app]
                  let effs :=
                    match findAppById st2.apps req.app with
                    | none => effs ++ [.sendMessage ev.channelId .appFetchFailed (some ev.messageId)]
                    | some _ => effs
                  (st2, effs, .crashed .approvedSetterMissing)

/-! ## Removal engine (`handle_removal_reaction` / `remove_tester_from_group`) -/

/-- `ReactionRoles.remove_tester_from_group` (lines 694–751). Its only caller
passes no `app`, so after a unique beta tester is found the read of
`app.beta_group_id` raises `AttributeError`. The request query uses
`tester_id=str(payload.user_id)` — the reacting user — with the APPROVED
filter. -/
def removeTesterFromGroup (env : ChatEnv) (st : BetaState) (effs : List Effect)
    (ev : ReactionEvent) (tester : Tester) (app : Option App) : HRes :=
  let effs := effs ++ [.betaFindTesters tester.email]
  let found := env.betaTesters tester.email (app.map (fun a => a.id))
  if found.isEmpty then
    (st, effs ++ [.sendMessage ev.channelId .noTestersWithEmail (some ev.messageId)], .ok)
  else if 1 < found.length then
    (st, effs ++ [.sendMessage ev.channelId .multipleTesters (some ev.messageId)], .ok)
  else
    match found.head? with
    | none => (st, effs, .ok)
    | some bt =>
      match app with
      | none => (st, effs, .crashed .appNoneBetaGroup)
      | some a =>
        match a.betaGroupId with
        | none => (st, effs, .ok)
        | some gid =>
          if !bt.betaGroupIds.contains gid then (st, effs, .ok)
          else
            let effs := effs ++ [.betaDeleteTester bt.id]
            let groupApps := findAppsByBetaGroup st.apps bt.betaGroupIds
            let effs := effs ++ [.storeFindAppsByGroup bt.betaGroupIds]
            let records := listRequests st.rows ev.userId
              (some (groupApps.map (fun x => x.id))) .approved true
            let effs := effs ++ [.storeListRequests ev.userId (groupApps.map (fun x => x.id))]
            let records1 := records.map (fun r => { r with removed := some true })
            if records1.any (fun r => r.id == none) then (st, effs, .crashed .missingRecordId)
            else
              let rows1 := records1.foldl
                (fun acc r => updateRequestRows st.testers st.apps acc r) st.rows
              ({ st with rows := rows1 },
               effs ++ [.storeUpdateRequests (records1.filterMap (fun r => r.id))], .ok)

/-- `ReactionRoles.handle_removal_reaction` (lines 560–611); the Bool is its
return value. -/
def handleRemovalReaction (env : ChatEnv) (st : BetaState) (ev : ReactionEvent) :
    BetaState × List Effect × Outcome × Bool :=
  match ev.guildId with
  | none => (st, [], .ok, false)
  | some g =>
    match isApprovalChannelQ st ev.channelId g with
    | none => (st, [], .blocked, false)
    | some (st1, e1, isAppr) =>
      if !isAppr then (st1, e1, .ok, false)
      else if !env.guilds.contains g then (st1, e1, .ok, false)
      else
        let eFetch := if env.msgCached ev.messageId then []
                      else [Effect.chatFetchMessage ev.messageId]
        if !env.msgAuthorIsBot ev.messageId then (st1, e1 ++ eFetch, .ok, false)
        else
          let effs := e1 ++ eFetch ++ [.addReaction ev.messageId processingEmoji]
          match getRemovalEmojis env st1 g with
          | none => (st1, effs, .blocked, false)
          | some (st2, e2, emojis) =>
            if !emojis.contains ev.emojiName then (st2, effs ++ e2, .ok, false)
            else
              let effs := effs ++ e2 ++ [.storeFindTesterByLeave ev.messageId]
              match findTesterByLeaveMessage st2.testers ev.messageId with
              | none =>
                (st2, effs ++ [.sendMessage ev.channelId .noTesterForLeave none], .ok, false)
              | some tester =>
                match removeTesterFromGroup env st2 effs ev tester none with
                | (st3, e3, .ok) => (st3, e3, .ok, true)
                | (st3, e3, out) => (st3, e3, out, false)

/-- `ReactionRoles.handle_reaction` (lines 613–635): the three handlers in
order inside `try`, and a `finally` that fetches the message (from cache when
available) and removes the bot's processing-emoji reaction — also on the paths
that did nothing, and also when an exception is propagating. -/
def handleReaction (env : ChatEnv) (st : BetaState) (ev : ReactionEvent) :
    BetaState × List Effect × Outcome × Bool :=
  let main : BetaState × List Effect × Outcome × Bool :=
    if ev.eventType == "REACTION_ADD" then
      match handleRoleReaction env st ev with
      | (st1, e1, .ok) =>
        match handleRoleApproval env st1 ev with
        | (st2, e2, .ok) =>
          match handleRemovalReaction env st2 ev with
          | (st3, e3, out, handled) => (st3, e1 ++ e2 ++ e3, out, handled)
        | (st2, e2, out) => (st2, e1 ++ e2, out, false)
      | (st1, e1, out) => (st1, e1, out, false)
    else (st, [], .ok, false)
  match main with
  | (stf, effs, .blocked, handled) => (stf, effs, .blocked, handled)
  | (stf, effs, out, handled) =>
    let eFetch := if env.msgCached ev.messageId then []
                  else [Effect.chatFetchMessage ev.messageId]
    (stf, effs ++ eFetch ++ [.removeReaction ev.messageId processingEmoji], out, handled)

/-! ## Concrete scenario inputs used by witnesses and counterexamples -/

/-- A permissive chat environment: one guild, channels/roles known, members
hold roles, messages authored by the bot and locally cached, config values that
parse to themselves, and a beta-distribution API knowing one tester in group
`bg` for any email. -/
def env0 : ChatEnv :=
  { guilds := ["g1"]
    guildHasChannel := fun _ _ => true
    channelKnown := fun _ => true
    guildHasRole := fun _ _ => true
    memberHasRole := fun _ _ => true
    msgCreatedAt := fun _ => 0
    msgAuthorIsBot := fun _ => true
    msgCached := fun _ => true
    parseEmojiList := fun v => [v]
    parseAgreement := fun _ => none
    betaTesters := fun e _ => [{ id := "bt1", email := e, betaGroupIds := ["bg"] }] }

/-- A stored tester: discord id 100, registered email, one leave message. -/
def testerRec100 : String × List (String × FieldVal) :=
  ("trec", [("Username", .s "alice"), ("Discord ID", .s "100"),
            ("Email", .s "alice@example.com"), ("Leave Message IDs", .s "lm1")])

/-- An app with approval channel `ch1` and beta group `bg`. -/
def app1 : App :=
  { id := "apprec", name := "TestApp", approvalChannel := some "ch1",
    reactionRoleIds := ["role1"], appStoreKeyId := some "k1", betaGroupId := some "bg" }

/-- An unapproved active request of tester 100 for `app1`, primary notification
message `m1`, duplicates `m2` and `m3`. -/
def reqRow1 : RequestRow :=
  { id := "req1", testerLink := "trec", testerDiscordId := "100", appLink := "apprec",
    appName := "TestApp", notifId := some "m1", furtherIds := some "m2,m3",
    approvalChannel := some "ch1", appRRids := ["role1"], serverId := "g1", created := 0 }

/-- An approved active request of tester 100 for `app1`. -/
def reqRowApproved : RequestRow :=
  { id := "req2", testerLink := "trec", testerDiscordId := "100", appLink := "apprec",
    appName := "TestApp", approvedF := some true, notifId := some "m9",
    approvalChannel := some "ch1", appRRids := ["role1"], serverId := "g1", created := 0 }

/-- Approval-engine state: channel `ch1` is an approval channel, guild `g1` has
approval emoji `✅` and removal emoji `🗑️` configured. -/
def stApproval : BetaState :=
  { apps := [app1]
    testers := [testerRec100]
    rows := [reqRow1]
    approvalsChannelIds := ["ch1"]
    cfg := { store := [⟨"g1", "approval_emojis", "✅"⟩, ⟨"g1", "removal_emojis", "🗑️"⟩] } }

/-- Removal-engine state: tester 100 has an approved active request for `app1`
whose beta group the beta-distribution API reports for the tester. -/
def stRemoval : BetaState :=
  { apps := [app1]
    testers := [testerRec100]
    rows := [reqRowApproved]
    approvalsChannelIds := ["ch1"]
    cfg := { store := [⟨"g1", "approval_emojis", "✅"⟩, ⟨"g1", "removal_emojis", "🗑️"⟩] } }

/-- Moderator 900 reacts `✅` on the primary notification message `m1`. -/
def evApproveM1 : ReactionEvent :=
  { messageId := "m1", channelId := "ch1", guildId := some "g1", userId := "900",
    emojiName := "✅" }

/-- Moderator 900 reacts `✅` on the duplicate notification message `m2`. -/
def evApproveM2 : ReactionEvent :=
  { messageId := "m2", channelId := "ch1", guildId := some "g1", userId := "900",
    emojiName := "✅" }

/-- Moderator 900 reacts `🗑️` on tester 100's leave message `lm1`. -/
def evRemoveLm1 : ReactionEvent :=
  { messageId := "lm1", channelId := "ch1", guildId := some "g1", userId := "900",
    emojiName := "🗑️" }

/-- An unrelated reaction: message `mX` is not watched and channel `chX` is not
an approval channel; all caches are cold. -/
def evUnrelated : ReactionEvent :=
  { messageId := "mX", channelId := "chX", guildId := some "g1", userId := "900",
    emojiName := "👍" }

/-- State for the unrelated-reaction scenario: empty caches, no reaction roles,
no approval channels configured. -/
def stUnrelated : BetaState := { }

/-- A reaction-role record added directly to the `ReactionRoles` table after
the caches were last populated. -/
def rrNew : ReactionRole :=
  { id := "rr9"
    serverId := "g1"
    messageId := "m9"
    reactionName := "🚀"
    roleId := "role9"
    appIds := ["app1"]
    requiresRulesApproval := false }

/-- A `Config` entry added directly to the store while ("g1", "new_key") is
still negative-cached. -/
def cfgNewEntry : ConfigEntry := ⟨"g1", "new_key", "ch42"⟩

/-- A previously cached `Config` entry that still exists in the store. -/
def cfgOldEntry : ConfigEntry := ⟨"g2", "old_key", "ch7"⟩

/-- Config-storage state for the refresh scenario: `cfgNewEntry` is in the
store but only recorded as absent in the negative cache, while server "g2"'s
cached entry still exists. -/
def cfgRefreshScenario : ConfigState :=
  { store := [cfgOldEntry, cfgNewEntry]
    cache := [("g2", [("old_key", cfgOldEntry)])]
    neg := [("g1", ["new_key"])] }

/-- Pipeline state for the refresh scenario: `rrNew` is in the store but in
neither the per-message reaction-role cache nor the watched-message list. -/
def stRefresh : BetaState :=
  { rrStore := [rrNew]
    cfg := cfgRefreshScenario }

/-- Config-storage state on which `refresh_cache` deadlocks: the key "absent"
is still missing from the store, so phase 2's nested `retrieve_config` blocks
on the already-held non-reentrant negative-cache lock before the now-existing
"new_key" is removed. -/
def cfgPoisoned : ConfigState :=
  { store := [⟨"g1", "new_key", "ch42"⟩]
    neg := [("g1", ["absent", "new_key"])] }

/-- The value `get_default_approvals_channel_id` resolves to, as a pure
function of the current caches and store (TTL cache, then negative cache,
then config cache, then the store). -/
def defaultApprovalsChannelPure (st : BetaState) (g : String) : Option String :=
  match alookup st.ttlApprovals g with
  | some v => v
  | none =>
    if !st.cfg.negLockHeld && negHas st.cfg g "default_approvals_channel" then none
    else match cacheGet st.cfg g "default_approvals_channel" with
      | some e => some e.value
      | none => (cfgStoreLookup st.cfg.store g "default_approvals_channel").map
          (fun e => e.value)

/-- The parts of the pipeline state that pure config lookups never touch. -/
def cfgOnly (st st1 : BetaState) : Prop :=
  st1.rows = st.rows ∧ st1.testers = st.testers ∧ st1.apps = st.apps
  ∧ st1.rrStore = st.rrStore ∧ st1.rrCache = st.rrCache ∧ st1.watched = st.watched
  ∧ st1.approvalsChannelIds = st.approvalsChannelIds

/-- Effect lists containing neither store writes nor chat-platform writes nor
beta-distribution writes. -/
def readOnlyEffs (effs : List Effect) : Prop :=
  ∀ e ∈ effs, e.isStoreWrite = false ∧ e.isChatWrite = false ∧ e.isBetaWrite = false


theorem find?_mapset_ne {β : Type} (fs : List (String × β)) (k k2 : String) (v : β)
    (h : k2 ≠ k) :
    (fs.map (fun p => if p.1 == k then (k, v) else p)).find? (fun p => p.1 == k2)
      = fs.find? (fun p => p.1 == k2) := by
  have hkk : ((k : String) == k2) = false := beq_eq_false_iff_ne.mpr (fun he => h he.symm)
  induction fs with
  | nil => rfl
  | cons p ps ih =>
    simp only [List.map_cons]
    by_cases hp : p.1 = k
    · have h2 : (p.1 == k2) = false := by rw [hp]; exact hkk
      have h3 : (p.1 == k) = true := beq_iff_eq.mpr hp
      rw [if_pos h3]
      rw [List.find?_cons_of_neg _ (by simp [hkk]), List.find?_cons_of_neg _ (by simp [h2])]
      exact ih
    · have h3 : (p.1 == k) = false := beq_eq_false_iff_ne.mpr hp
      rw [if_neg (by simp [h3])]
      by_cases hf : p.1 = k2
      · rw [List.find?_cons_of_pos _ (by simp [hf]), List.find?_cons_of_pos _ (by simp [hf])]
      · rw [List.find?_cons_of_neg _ (by simp [hf]), List.find?_cons_of_neg _ (by simp [hf])]
        exact ih

theorem find?_appendone_ne {β : Type} (fs : List (String × β)) (k k2 : String) (v : β)
    (h : k2 ≠ k) :
    (fs ++ [(k, v)]).find? (fun p => p.1 == k2) = fs.find? (fun p => p.1 == k2) := by
  have hkk : ((k : String) == k2) = false := beq_eq_false_iff_ne.mpr (fun he => h he.symm)
  induction fs with
  | nil =>
    simp only [List.nil_append]
    rw [List.find?_cons_of_neg _ (by simp [hkk])]
  | cons p ps ih =>
    simp only [List.cons_append]
    by_cases hf : p.1 = k2
    · rw [List.find?_cons_of_pos _ (by simp [hf]), List.find?_cons_of_pos _ (by simp [hf])]
    · rw [List.find?_cons_of_neg _ (by simp [hf]), List.find?_cons_of_neg _ (by simp [hf])]
      exact ih

theorem find?_aset_ne {β : Type} (fs : List (String × β)) (k k2 : String) (v : β)
    (h : k2 ≠ k) :
    (aset fs k v).find? (fun p => p.1 == k2) = fs.find? (fun p => p.1 == k2) := by
  unfold aset
  split
  · exact find?_mapset_ne fs k k2 v h
  · exact find?_appendone_ne fs k k2 v h

theorem getFieldStr_aset_ne (fs : List (String × FieldVal)) (k k2 : String) (v : FieldVal)
    (h : k2 ≠ k) : getFieldStr (aset fs k v) k2 = getFieldStr fs k2 := by
  unfold getFieldStr
  rw [find?_aset_ne fs k k2 v h]

theorem getFieldStr_applyPatch_notin (stored patch : List (String × FieldVal)) (k : String)
    (h : ∀ p ∈ patch, p.1 ≠ k) :
    getFieldStr (applyPatch stored patch) k = getFieldStr stored k := by
  induction patch generalizing stored with
  | nil => rfl
  | cons p ps ih =>
    have hk : p.1 ≠ k := h p (by simp)
    have := ih (aset stored p.1 p.2) (fun q hq => h q (by simp [hq]))
    simpa [applyPatch] using
      this.trans (getFieldStr_aset_ne stored p.1 k p.2 (fun he => hk he.symm))

theorem toAirtable_keys (t : Tester)
    (he : t.email = none) (hc : t.contactEmail = none) (hg : t.givenName = none)
    (hf : t.familyName = none) (hr : t.registrationMessageId = none) :
    ∀ p ∈ t.toAirtable,
      p.1 = "Username" ∨ p.1 = "Discord ID" ∨ p.1 = "Testing Requests"
        ∨ p.1 = "Leave Message IDs" := by
  intro p hp
  cases htr : t.testingRequests with
  | none =>
    simp [Tester.toAirtable, he, hc, hg, hf, hr, htr] at hp
    rcases hp with h1 | h1 | h1 <;> simp [h1]
  | some v =>
    simp [Tester.toAirtable, he, hc, hg, hf, hr, htr] at hp
    rcases hp with h1 | h1 | h1 | h1 <;> simp [h1]

/-- C10: serializing a `Tester` whose `email` (and the other optional identity
attributes) is `None` omits those fields from the store payload entirely, so the
PATCH-upsert performed by `upsert_tester` leaves any previously registered value
of `Email` (and of `Contact Email`, `Given Name`, `Family Name`,
`Registration Message ID`) on the stored record unchanged: re-onboarding can
never erase a tester's registered email. -/
theorem c10_upsert_never_erases_email (t : Tester) (stored : List (String × FieldVal))
    (he : t.email = none) (hc : t.contactEmail = none) (hg : t.givenName = none)
    (hf : t.familyName = none) (hr : t.registrationMessageId = none) :
    (∀ p ∈ t.toAirtable,
        p.1 ≠ "Email" ∧ p.1 ≠ "Contact Email" ∧ p.1 ≠ "Given Name"
          ∧ p.1 ≠ "Family Name" ∧ p.1 ≠ "Registration Message ID") ∧
    getFieldStr (applyPatch stored t.toAirtable) "Email" = getFieldStr stored "Email" ∧
    getFieldStr (applyPatch stored t.toAirtable) "Contact Email"
      = getFieldStr stored "Contact Email" ∧
    getFieldStr (applyPatch stored t.toAirtable) "Given Name"
      = getFieldStr stored "Given Name" ∧
    getFieldStr (applyPatch stored t.toAirtable) "Family Name"
      = getFieldStr stored "Family Name" ∧
    getFieldStr (applyPatch stored t.toAirtable) "Registration Message ID"
      = getFieldStr stored "Registration Message ID" := by
  have hkeys := toAirtable_keys t he hc hg hf hr
  refine ⟨?_, ?_, ?_, ?_, ?_, ?_⟩
  · intro p hp
    rcases hkeys p hp with h1 | h1 | h1 | h1 <;> rw [h1] <;>
      refine ⟨by decide, by decide, by decide, by decide, by decide⟩
  all_goals
    apply getFieldStr_applyPatch_notin
    intro p hp
    rcases hkeys p hp with h1 | h1 | h1 | h1 <;> rw [h1] <;> decide

/-- Witness for C10 at a concrete input: the fresh `Tester` built by the
onboarding engine (username and discord id only) upserted over a stored record
that already carries an email leaves that email unchanged. -/
theorem c10_upsert_never_erases_email_witness :
    getFieldStr
      (applyPatch [("Email", FieldVal.s "tester@example.com")]
        (Tester.toAirtable { username := "u", discordId := "1" }))
      "Email" = some "tester@example.com" := by
  have h := c10_upsert_never_erases_email { username := "u", discordId := "1" }
    [("Email", FieldVal.s "tester@example.com")] rfl rfl rfl rfl rfl
  exact h.2.1

/-- C8 counterexample: the claim says a successful (2xx) response does not
raise, but the client raises on every status other than exactly 200; at status
201 (a 2xx success) the operation fails with the structured error. -/
theorem c8_counterexample_201_raises :
    (200 ≤ 201 ∧ 201 < 300) ∧
    airtableCheck "https://api.airtable.com/v0/b/Testers"
        (⟨201, ⟨"T", "m"⟩, (0 : Nat)⟩ : HttpResponse Nat)
      = Except.error ⟨"https://api.airtable.com/v0/b/Testers", "T", "m"⟩ :=
  ⟨by decide, rfl⟩

/-- C8 (amended): every record-store request raises a structured error carrying
the request URL and the parsed error body exactly when the HTTP status is not
200; a status-200 response does not raise; and a single operation issues exactly
one request (no automatic retry). -/
theorem c8_non200_raises_no_retry {α : Type} (url : String) (r : HttpResponse α)
    (respond : String → HttpResponse α) :
    (r.status ≠ 200 →
      airtableCheck url r
        = Except.error { url := url, errorType := r.errorBody.errorType,
                         errorMessage := r.errorBody.errorMessage }) ∧
    (r.status = 200 → airtableCheck url r = Except.ok r.payload) ∧
    (airtableRequest url respond).1 = [url] := by
  refine ⟨fun h => ?_, fun h => ?_, rfl⟩
  · simp [airtableCheck, h]
  · simp [airtableCheck, h]

/-- Witness for C8 (amended) at a concrete non-200 response. -/
theorem c8_non200_raises_no_retry_witness :
    airtableCheck "u" (⟨404, ⟨"NOT_FOUND", "nf"⟩, (0 : Nat)⟩ : HttpResponse Nat)
      = Except.error ⟨"u", "NOT_FOUND", "nf"⟩ := by
  have h := c8_non200_raises_no_retry "u"
    (⟨404, ⟨"NOT_FOUND", "nf"⟩, (0 : Nat)⟩ : HttpResponse Nat)
    (fun _ => ⟨404, ⟨"NOT_FOUND", "nf"⟩, (0 : Nat)⟩)
  exact h.1 (by decide)

/-- C2 (code bug): on a fully valid approval event — an approval emoji on the
bot's primary notification message in an approval channel, with request, tester
and app all resolvable and the request not yet approved — `handle_role_approval`
raises `AttributeError` at `testing_request.approved = True` (the `approved`
property of `TestingRequest` defines no setter): the request is never marked
approved, and no store write, no beta-group call, no role grant and no tester
DM happen. -/
theorem c2_approval_assignment_crashes :
    (handleRoleApproval env0 stApproval evApproveM1).2.2
        = Outcome.crashed .approvedSetterMissing
    ∧ (handleRoleApproval env0 stApproval evApproveM1).1.rows = stApproval.rows
    ∧ ((handleRoleApproval env0 stApproval evApproveM1).2.1.filter Effect.isStoreWrite) = []
    ∧ ((handleRoleApproval env0 stApproval evApproveM1).2.1.filter Effect.isBetaWrite) = []
    ∧ ((handleRoleApproval env0 stApproval evApproveM1).2.1.filter Effect.isChatWrite) = []
    ∧ (fetchRequest stApproval.rows "m1").map TestingRequest.approved = some false := by
  decide

/-- C6 (code bug): an approval reaction on duplicate notification message `m2`
does resolve the testing request (whose primary message is `m1` and duplicates
are `m2`, `m3`), but the handler crashes at the `approved` assignment before
reaching the reaction-marking step, so neither the completion reaction on `m2`
nor the already-handled reactions on `m1` and `m3` are ever added. -/
theorem c6_duplicate_marking_unreachable :
    (fetchRequest stApproval.rows "m2") = some (TestingRequest.fromRow reqRow1)
    ∧ (handleRoleApproval env0 stApproval evApproveM2).2.2
        = Outcome.crashed .approvedSetterMissing
    ∧ ((handleRoleApproval env0 stApproval evApproveM2).2.1.filter
        (fun e => match e with | .addReaction _ _ => true | _ => false)) = [] := by
  decide

/-- C4 (code bug): a removal reaction on tester 100's leave message, with the
beta-distribution API reporting exactly one tester in group `bg` and an
approved active request for an app sharing that group, crashes with
`AttributeError` (`remove_tester_from_group` is called without an `app` and
dereferences `app.beta_group_id`): no request is marked removed. -/
theorem c4_removal_crashes_before_marking :
    (handleRemovalReaction env0 stRemoval evRemoveLm1).2.2.1
        = Outcome.crashed .appNoneBetaGroup
    ∧ (handleRemovalReaction env0 stRemoval evRemoveLm1).1.rows = stRemoval.rows
    ∧ ∀ row ∈ (handleRemovalReaction env0 stRemoval evRemoveLm1).1.rows,
        row.removed = false := by
  decide

/-- C7 counterexample: handling a reaction whose message is unwatched and whose
channel is no approval channel, with cold caches, does perform record-store
calls (the watched-message listing and a config lookup) and does perform a
chat-platform write (removing the bot's processing-emoji reaction in the
`finally` block), contradicting the claim that no store calls and no
chat-platform writes happen. -/
theorem c7_counterexample_unrelated_reaction :
    ((handleReaction env0 stUnrelated evUnrelated).2.1.filter Effect.isStoreCall ≠ [])
    ∧ ((handleReaction env0 stUnrelated evUnrelated).2.1.filter Effect.isChatWrite ≠ [])
    ∧ (handleReaction env0 stUnrelated evUnrelated).2.1
        = [.storeListWatched, .storeGetConfig "g1" "default_approvals_channel",
           .removeReaction "mX" processingEmoji] := by
  decide

theorem readOnlyEffs_nil : readOnlyEffs [] := by
  intro e he; cases he

theorem readOnlyEffs_single_cfg (s k : String) :
    readOnlyEffs [Effect.storeGetConfig s k] := by
  intro e he
  simp only [List.mem_singleton] at he
  subst he
  exact ⟨rfl, rfl, rfl⟩

theorem readOnlyEffs_append {a b : List Effect}
    (ha : readOnlyEffs a) (hb : readOnlyEffs b) : readOnlyEffs (a ++ b) := by
  intro e he
  rcases List.mem_append.mp he with h | h
  · exact ha e h
  · exact hb e h

theorem readOnlyEffs_filter_chat {effs : List Effect} (h : readOnlyEffs effs) :
    effs.filter Effect.isChatWrite = [] := by
  rw [List.filter_eq_nil]
  intro e he
  simp [(h e he).2.1]

theorem readOnlyEffs_filter_store {effs : List Effect} (h : readOnlyEffs effs) :
    effs.filter Effect.isStoreWrite = [] := by
  rw [List.filter_eq_nil]
  intro e he
  simp [(h e he).1]

theorem readOnlyEffs_filter_beta {effs : List Effect} (h : readOnlyEffs effs) :
    effs.filter Effect.isBetaWrite = [] := by
  rw [List.filter_eq_nil]
  intro e he
  simp [(h e he).2.2]

theorem cfgOnly_refl (st : BetaState) : cfgOnly st st :=
  ⟨rfl, rfl, rfl, rfl, rfl, rfl, rfl⟩

theorem cfgOnly_trans {a b c : BetaState} (h1 : cfgOnly a b) (h2 : cfgOnly b c) :
    cfgOnly a c := by
  obtain ⟨a1, a2, a3, a4, a5, a6, a7⟩ := h1
  obtain ⟨b1, b2, b3, b4, b5, b6, b7⟩ := h2
  exact ⟨b1.trans a1, b2.trans a2, b3.trans a3, b4.trans a4, b5.trans a5,
         b6.trans a6, b7.trans a7⟩

/-- `get_config` preserves everything but the config caches, and performs at
most a single store read. -/
theorem getCfg_inv {st st1 : BetaState} {s k : String}
    {effs : List Effect} {v : Option ConfigEntry}
    (h : getCfg st s k = some (st1, effs, v)) :
    cfgOnly st st1 ∧ readOnlyEffs effs := by
  unfold getCfg at h
  split at h
  · simp only [Option.some.injEq, Prod.mk.injEq] at h
    obtain ⟨h1, h2, h3⟩ := h
    subst h1; subst h2
    exact ⟨cfgOnly_refl st, readOnlyEffs_nil⟩
  · split at h
    · simp only [Option.some.injEq, Prod.mk.injEq] at h
      obtain ⟨h1, h2, h3⟩ := h
      subst h1; subst h2
      exact ⟨cfgOnly_refl st, readOnlyEffs_nil⟩
    · split at h
      · exact Option.noConfusion h
      · simp only [Option.some.injEq, Prod.mk.injEq] at h
        obtain ⟨h1, h2, h3⟩ := h
        subst h1; subst h2
        exact ⟨⟨rfl, rfl, rfl, rfl, rfl, rfl, rfl⟩, readOnlyEffs_single_cfg s k⟩

/-- `get_default_approvals_channel_id` preserves everything but the config
caches and TTL cache, read-only. -/
theorem getDefaultApprovalsChannelId_inv {st st1 : BetaState} {g : String}
    {effs : List Effect} {v : Option String}
    (h : getDefaultApprovalsChannelId st g = some (st1, effs, v)) :
    cfgOnly st st1 ∧ readOnlyEffs effs := by
  unfold getDefaultApprovalsChannelId at h
  split at h
  · simp only [Option.some.injEq, Prod.mk.injEq] at h
    obtain ⟨h1, h2, h3⟩ := h
    subst h1; subst h2
    exact ⟨cfgOnly_refl st, readOnlyEffs_nil⟩
  · rcases hC : getCfg st g "default_approvals_channel" with _ | ⟨stA, effsA, entOpt⟩
    · rw [hC] at h
      exact Option.noConfusion h
    · rw [hC] at h
      simp only [Option.some.injEq, Prod.mk.injEq] at h
      obtain ⟨h1, h2, h3⟩ := h
      subst h1; subst h2
      obtain ⟨hco, hro⟩ := getCfg_inv hC
      obtain ⟨c1, c2, c3, c4, c5, c6, c7⟩ := hco
      exact ⟨⟨c1, c2, c3, c4, c5, c6, c7⟩, hro⟩

theorem find?_key_none {β : Type} (fs : List (String × β)) (k : String)
    (h : (fs.any fun p => p.1 == k) = false) :
    fs.find? (fun p => p.1 == k) = none := by
  induction fs with
  | nil => rfl
  | cons p ps ih =>
    simp only [List.any_cons, Bool.or_eq_false_iff] at h
    rw [List.find?_cons_of_neg _ (by simp [h.1])]
    exact ih h.2

theorem find?_key_self_map {β : Type} (fs : List (String × β)) (k : String) (v : β)
    (h : (fs.any fun p => p.1 == k) = true) :
    (fs.map (fun p => if p.1 == k then (k, v) else p)).find? (fun p => p.1 == k)
      = some (k, v) := by
  induction fs with
  | nil => cases h
  | cons p ps ih =>
    simp only [List.map_cons]
    by_cases hp : p.1 = k
    · have h3 : (p.1 == k) = true := beq_iff_eq.mpr hp
      rw [if_pos h3]
      rw [List.find?_cons_of_pos _ (by simp)]
    · have h3 : (p.1 == k) = false := beq_eq_false_iff_ne.mpr hp
      rw [if_neg (by simp [h3])]
      rw [List.find?_cons_of_neg _ (by simp [h3])]
      apply ih
      simpa [List.any_cons, h3] using h

theorem find?_append_of_none {α : Type} (fs l : List α) (p : α → Bool)
    (h : fs.find? p = none) : (fs ++ l).find? p = l.find? p := by
  induction fs with
  | nil => rfl
  | cons a as ih =>
    cases hpa : p a with
    | true =>
      rw [List.find?_cons_of_pos _ hpa] at h
      exact Option.noConfusion h
    | false =>
      rw [List.find?_cons_of_neg _ (by simp [hpa])] at h
      simp only [List.cons_append]
      rw [List.find?_cons_of_neg _ (by simp [hpa])]
      exact ih h

theorem alookup_aset_self {β : Type} (m : List (String × β)) (k : String) (v : β) :
    alookup (aset m k v) k = some v := by
  unfold alookup aset
  split
  case isTrue h =>
    rw [find?_key_self_map m k v h]
    rfl
  case isFalse h =>
    have h0 : (m.any fun p => p.1 == k) = false := by
      cases hb : (m.any fun p => p.1 == k) with
      | true => exact absurd hb h
      | false => rfl
    rw [find?_append_of_none _ _ _ (find?_key_none m k h0)]
    rw [List.find?_cons_of_pos _ (by simp)]
    rfl

theorem alookup_aset_ne {β : Type} (m : List (String × β)) (k k2 : String) (v : β)
    (h : k2 ≠ k) : alookup (aset m k v) k2 = alookup m k2 := by
  unfold alookup
  rw [find?_aset_ne m k k2 v h]

/-- With the negative-cache lock free, `get_default_approvals_channel_id`
resolves to the pure projection `defaultApprovalsChannelPure`, keeps the lock
free, and leaves its own future value unchanged. -/
theorem getDefault_resolves (st : BetaState) (g : String)
    (hlock : st.cfg.negLockHeld = false) :
    ∃ st1 effs,
      getDefaultApprovalsChannelId st g
          = some (st1, effs, defaultApprovalsChannelPure st g)
        ∧ st1.cfg.negLockHeld = false
        ∧ defaultApprovalsChannelPure st1 g = defaultApprovalsChannelPure st g := by
  cases hT : alookup st.ttlApprovals g with
  | some v =>
    refine ⟨st, [], ?_, hlock, rfl⟩
    simp [getDefaultApprovalsChannelId, hT, defaultApprovalsChannelPure]
  | none =>
    by_cases hN : negHas st.cfg g "default_approvals_channel"
    · refine ⟨{ st with ttlApprovals := aset st.ttlApprovals g none }, [], ?_, hlock, ?_⟩
      · simp [getDefaultApprovalsChannelId, hT, getCfg, hlock, hN,
          defaultApprovalsChannelPure]
      · simp [defaultApprovalsChannelPure, alookup_aset_self, hT, hN, hlock]
    · cases hC : cacheGet st.cfg g "default_approvals_channel" with
      | some e =>
        refine ⟨{ st with ttlApprovals := aset st.ttlApprovals g (some e.value) }, [],
          ?_, hlock, ?_⟩
        · simp [getDefaultApprovalsChannelId, hT, getCfg, hlock, hN, hC,
            defaultApprovalsChannelPure]
        · simp [defaultApprovalsChannelPure, alookup_aset_self, hT, hN, hC, hlock]
      | none =>
        cases hS : cfgStoreLookup st.cfg.store g "default_approvals_channel" with
        | some e =>
          refine ⟨{ st with
              cfg := { st.cfg with
                cache := aset st.cfg.cache g
                  (aset ((alookup st.cfg.cache g).getD []) "default_approvals_channel" e) },
              ttlApprovals := aset st.ttlApprovals g (some e.value) },
            [Effect.storeGetConfig g "default_approvals_channel"], ?_, hlock, ?_⟩
          · simp [getDefaultApprovalsChannelId, hT, getCfg, hlock, hN, hC,
              retrieveConfig, hS, defaultApprovalsChannelPure]
          · simp [defaultApprovalsChannelPure, alookup_aset_self, hT, hN, hC, hS, hlock]
        | none =>
          refine ⟨{ st with
              cfg := { st.cfg with
                cache := aset st.cfg.cache g ((alookup st.cfg.cache g).getD []),
                neg := negAdd st.cfg.neg g "default_approvals_channel" },
              ttlApprovals := aset st.ttlApprovals g none },
            [Effect.storeGetConfig g "default_approvals_channel"], ?_, hlock, ?_⟩
          · simp [getDefaultApprovalsChannelId, hT, getCfg, hlock, hN, hC,
              retrieveConfig, hS, defaultApprovalsChannelPure]
          · simp [defaultApprovalsChannelPure, alookup_aset_self, hT, hN, hC, hS, hlock]

/-- `defaultApprovalsChannelPure` only reads the TTL cache and the config
state. -/
theorem defaultApprovalsChannelPure_congr {st1 st : BetaState} (g : String)
    (ht : st1.ttlApprovals = st.ttlApprovals) (hc : st1.cfg = st.cfg) :
    defaultApprovalsChannelPure st1 g = defaultApprovalsChannelPure st g := by
  unfold defaultApprovalsChannelPure
  rw [ht, hc]

/-- A reaction on an unwatched message makes `handle_role_reaction` return
after at most the watched-list refresh (a store read). -/
theorem handleRoleReaction_unwatched (env : ChatEnv) (st : BetaState) (ev : ReactionEvent)
    (h1 : st.watched.contains ev.messageId = false)
    (h2 : (st.rrStore.map (fun r => r.messageId)).contains ev.messageId = false) :
    ∃ stA effsA, handleRoleReaction env st ev = (stA, effsA, .ok)
      ∧ stA.cfg = st.cfg ∧ stA.ttlApprovals = st.ttlApprovals
      ∧ stA.approvalsChannelIds = st.approvalsChannelIds
      ∧ stA.rows = st.rows ∧ stA.testers = st.testers
      ∧ readOnlyEffs effsA := by
  have h1m : ev.messageId ∉ st.watched := by simpa using h1
  have h2m : ev.messageId ∉ st.rrStore.map (fun r => r.messageId) := by simpa using h2
  by_cases hw : st.watched.isEmpty
  · refine ⟨{ st with watched := st.rrStore.map (fun r => r.messageId) },
      [.storeListWatched], ?_, rfl, rfl, rfl, rfl, rfl, ?_⟩
    · simp [handleRoleReaction, listWatchedMessageIds, hw, h2m]
    · intro e he
      simp only [List.mem_singleton] at he
      subst he
      exact ⟨rfl, rfl, rfl⟩
  · refine ⟨st, [], ?_, rfl, rfl, rfl, rfl, rfl, readOnlyEffs_nil⟩
    simp [handleRoleReaction, hw, h1m]

/-- A reaction in a channel that is no approval channel makes
`handle_role_approval` return after at most a config read. -/
theorem handleRoleApproval_notApproval (env : ChatEnv) (st : BetaState) (ev : ReactionEvent)
    (hlock : st.cfg.negLockHeld = false)
    (hchan : st.approvalsChannelIds.contains ev.channelId = false)
    (hdef : ∀ g, ev.guildId = some g →
      defaultApprovalsChannelPure st g ≠ some ev.channelId) :
    ∃ stB effsB, handleRoleApproval env st ev = (stB, effsB, .ok)
      ∧ stB.cfg.negLockHeld = false
      ∧ cfgOnly st stB
      ∧ (∀ g2, ev.guildId = some g2 →
          defaultApprovalsChannelPure stB g2 = defaultApprovalsChannelPure st g2)
      ∧ readOnlyEffs effsB := by
  cases hg : ev.guildId with
  | none =>
    refine ⟨st, [], ?_, hlock, cfgOnly_refl st, ?_, readOnlyEffs_nil⟩
    · simp [handleRoleApproval, hg]
    · intro g2 hgg
      exact Option.noConfusion hgg
  | some g =>
    obtain ⟨st1, effs, hEq, hL1, hStab⟩ := getDefault_resolves st g hlock
    obtain ⟨hco, hro⟩ := getDefaultApprovalsChannelId_inv hEq
    have hbeq : (defaultApprovalsChannelPure st g == some ev.channelId) = false :=
      beq_eq_false_iff_ne.mpr (hdef g hg)
    have hisQ : isApprovalChannelQ st ev.channelId g = some (st1, effs, false) := by
      unfold isApprovalChannelQ
      rw [if_neg (by simpa using hchan), hEq]
      simp [hbeq]
    refine ⟨st1, effs, ?_, hL1, hco, ?_, hro⟩
    · unfold handleRoleApproval
      simp only [hg]
      rw [hisQ]
      simp
    · intro g2 hgg
      injection hgg with hgg2
      subst hgg2
      exact hStab

/-- A reaction in a channel that is no approval channel makes
`handle_removal_reaction` return `False` after at most a config read. -/
theorem handleRemovalReaction_notApproval (env : ChatEnv) (st : BetaState)
    (ev : ReactionEvent)
    (hlock : st.cfg.negLockHeld = false)
    (hchan : st.approvalsChannelIds.contains ev.channelId = false)
    (hdef : ∀ g, ev.guildId = some g →
      defaultApprovalsChannelPure st g ≠ some ev.channelId) :
    ∃ stC effsC, handleRemovalReaction env st ev = (stC, effsC, .ok, false)
      ∧ cfgOnly st stC ∧ readOnlyEffs effsC := by
  cases hg : ev.guildId with
  | none =>
    refine ⟨st, [], ?_, cfgOnly_refl st, readOnlyEffs_nil⟩
    simp [handleRemovalReaction, hg]
  | some g =>
    obtain ⟨st1, effs, hEq, hL1, hStab⟩ := getDefault_resolves st g hlock
    obtain ⟨hco, hro⟩ := getDefaultApprovalsChannelId_inv hEq
    have hbeq : (defaultApprovalsChannelPure st g == some ev.channelId) = false :=
      beq_eq_false_iff_ne.mpr (hdef g hg)
    have hisQ : isApprovalChannelQ st ev.channelId g = some (st1, effs, false) := by
      unfold isApprovalChannelQ
      rw [if_neg (by simpa using hchan), hEq]
      simp [hbeq]
    refine ⟨st1, effs, ?_, hco, hro⟩
    unfold handleRemovalReaction
    simp only [hg]
    rw [hisQ]
    simp

/-- C7 (amended): handling a reaction-added event whose message id is in
neither the cached nor the stored watched-message set and whose channel is
neither a cached approval channel nor the guild's default approvals channel
performs no record-store writes and no beta-distribution calls, leaves the
tester and request tables unchanged, and performs exactly one chat-platform
write — removing the bot's own processing-emoji reaction in the handler's
`finally` cleanup; read-only record-store lookups (the watched-message listing
and a config lookup) may occur when the caches are cold. -/
theorem c7_unrelated_reaction_effects (env : ChatEnv) (st : BetaState) (ev : ReactionEvent)
    (hevt : ev.eventType = "REACTION_ADD")
    (hw1 : st.watched.contains ev.messageId = false)
    (hw2 : (st.rrStore.map (fun r => r.messageId)).contains ev.messageId = false)
    (hlock : st.cfg.negLockHeld = false)
    (hchan : st.approvalsChannelIds.contains ev.channelId = false)
    (hdef : ∀ g, ev.guildId = some g →
      defaultApprovalsChannelPure st g ≠ some ev.channelId) :
    (handleReaction env st ev).1.rows = st.rows
    ∧ (handleReaction env st ev).1.testers = st.testers
    ∧ ((handleReaction env st ev).2.1.filter Effect.isStoreWrite = [])
    ∧ ((handleReaction env st ev).2.1.filter Effect.isBetaWrite = [])
    ∧ ((handleReaction env st ev).2.1.filter Effect.isChatWrite
        = [Effect.removeReaction ev.messageId processingEmoji])
    ∧ (handleReaction env st ev).2.2.1 = Outcome.ok
    ∧ (handleReaction env st ev).2.2.2 = false := by
  obtain ⟨stA, effsA, hA, hAcfg, hAttl, hAappr, hArows, hAtest, hAro⟩ :=
    handleRoleReaction_unwatched env st ev hw1 hw2
  have hlockA : stA.cfg.negLockHeld = false := by rw [hAcfg]; exact hlock
  have hchanA : stA.approvalsChannelIds.contains ev.channelId = false := by
    rw [hAappr]; exact hchan
  have hdefA : ∀ g, ev.guildId = some g →
      defaultApprovalsChannelPure stA g ≠ some ev.channelId := by
    intro g hgg
    rw [defaultApprovalsChannelPure_congr g hAttl hAcfg]
    exact hdef g hgg
  obtain ⟨stB, effsB, hB, hlockB, hcoB, hstabB, hBro⟩ :=
    handleRoleApproval_notApproval env stA ev hlockA hchanA hdefA
  have hchanB : stB.approvalsChannelIds.contains ev.channelId = false := by
    rw [hcoB.2.2.2.2.2.2]; exact hchanA
  have hdefB : ∀ g, ev.guildId = some g →
      defaultApprovalsChannelPure stB g ≠ some ev.channelId := by
    intro g hgg
    rw [hstabB g hgg]
    exact hdefA g hgg
  obtain ⟨stC, effsC, hC, hcoC, hCro⟩ :=
    handleRemovalReaction_notApproval env stB ev hlockB hchanB hdefB
  have hfS : (if env.msgCached ev.messageId then ([] : List Effect)
      else [Effect.chatFetchMessage ev.messageId]).filter Effect.isStoreWrite = [] := by
    split <;> rfl
  have hfB : (if env.msgCached ev.messageId then ([] : List Effect)
      else [Effect.chatFetchMessage ev.messageId]).filter Effect.isBetaWrite = [] := by
    split <;> rfl
  have hfC : (if env.msgCached ev.messageId then ([] : List Effect)
      else [Effect.chatFetchMessage ev.messageId]).filter Effect.isChatWrite = [] := by
    split <;> rfl
  have hmain : handleReaction env st ev
      = (stC, (effsA ++ effsB ++ effsC)
          ++ (if env.msgCached ev.messageId then ([] : List Effect)
              else [Effect.chatFetchMessage ev.messageId])
          ++ [Effect.removeReaction ev.messageId processingEmoji], .ok, false) := by
    unfold handleReaction
    rw [hevt]
    simp [hA, hB, hC]
  rw [hmain]
  have hrowsC : stC.rows = st.rows := by
    rw [hcoC.1, hcoB.1]; exact hArows
  have htestC : stC.testers = st.testers := by
    rw [hcoC.2.1, hcoB.2.1]; exact hAtest
  refine ⟨hrowsC, htestC, ?_, ?_, ?_, rfl, rfl⟩
  · simp only [List.filter_append, readOnlyEffs_filter_store hAro,
      readOnlyEffs_filter_store hBro, readOnlyEffs_filter_store hCro, hfS]
    rfl
  · simp only [List.filter_append, readOnlyEffs_filter_beta hAro,
      readOnlyEffs_filter_beta hBro, readOnlyEffs_filter_beta hCro, hfB]
    rfl
  · simp only [List.filter_append, readOnlyEffs_filter_chat hAro,
      readOnlyEffs_filter_chat hBro, readOnlyEffs_filter_chat hCro, hfC]
    rfl

/-- Witness for C7 (amended) at the concrete unrelated-reaction input. -/
theorem c7_unrelated_reaction_effects_witness :
    ((handleReaction env0 stUnrelated evUnrelated).2.1.filter Effect.isChatWrite
      = [Effect.removeReaction "mX" processingEmoji])
    ∧ (handleReaction env0 stUnrelated evUnrelated).2.2.1 = Outcome.ok := by
  have h := c7_unrelated_reaction_effects env0 stUnrelated evUnrelated
    rfl rfl rfl rfl rfl
    (by
      intro g hgg
      injection hgg with hg2
      subst hg2
      simp [defaultApprovalsChannelPure, stUnrelated, alookup, negHas, cacheGet,
        cfgStoreLookup])
  exact ⟨h.2.2.2.2.1, h.2.2.2.2.2.1⟩

/-! ### Lemmas for the cache-refresh claim (C9) -/

theorem contains_iff_mem_str (l : List String) (a : String) :
    l.contains a = true ↔ a ∈ l := by
  simp

theorem retrieveConfig_hit {c : ConfigState} {s2 k2 : String} {e2 : ConfigEntry}
    (hS : cfgStoreLookup c.store s2 k2 = some e2) :
    retrieveConfig c s2 k2
      = some ({ c with cache := (aset c.cache s2
          (aset ((alookup c.cache s2).getD []) k2 e2)) }, some e2) := by
  unfold retrieveConfig
  rw [hS]

theorem cacheGet_update_hit (c : ConfigState) (s2 k2 : String) (e2 : ConfigEntry) :
    cacheGet { c with cache := (aset c.cache s2
        (aset ((alookup c.cache s2).getD []) k2 e2)) } s2 k2 = some e2 := by
  unfold cacheGet
  simp only [alookup_aset_self, Option.bind_some]
  exact alookup_aset_self _ k2 e2

theorem cacheGet_update_other (c : ConfigState) (s2 k2 : String) (e2 : ConfigEntry)
    (sx kx : String) (hne : ¬(sx = s2 ∧ kx = k2)) :
    cacheGet { c with cache := (aset c.cache s2
        (aset ((alookup c.cache s2).getD []) k2 e2)) } sx kx = cacheGet c sx kx := by
  unfold cacheGet
  by_cases hsx : sx = s2
  · subst hsx
    have hkx : kx ≠ k2 := fun hk => hne ⟨rfl, hk⟩
    simp only [alookup_aset_self, Option.some_bind]
    rw [alookup_aset_ne _ _ _ _ hkx]
    cases hsv : alookup c.cache sx with
    | some sc => simp [hsv]
    | none => simp [hsv, alookup]
  · rw [show alookup (aset c.cache s2 (aset ((alookup c.cache s2).getD []) k2 e2)) sx
        = alookup c.cache sx from alookup_aset_ne _ _ _ _ hsx]

theorem negHas_congr {c2 c : ConfigState} (s k : String) (h : c2.neg = c.neg) :
    negHas c2 s k = negHas c s k := by
  unfold negHas
  rw [h]

theorem contains_filter_not_mem (l rem : List String) (k : String)
    (hk : rem.contains k = true) :
    (l.filter (fun kx => !rem.contains kx)).contains k = false := by
  rw [Bool.eq_false_iff]
  intro hcon
  have hm := (contains_iff_mem_str _ k).mp hcon
  have hp := List.of_mem_filter hm
  rw [hk] at hp
  exact Bool.noConfusion hp

theorem contains_filter_of_not_contains (l rem : List String) (k : String)
    (hk : l.contains k = false) :
    (l.filter (fun kx => !rem.contains kx)).contains k = false := by
  rw [Bool.eq_false_iff]
  intro hcon
  have hm := (contains_iff_mem_str _ k).mp hcon
  have hm2 := List.mem_of_mem_filter hm
  rw [(contains_iff_mem_str l k).mpr hm2] at hk
  exact Bool.noConfusion hk

theorem cacheGet_eq_of_cache {c1 c2 : ConfigState} (sx kx : String)
    (h : c1.cache = c2.cache) : cacheGet c1 sx kx = cacheGet c2 sx kx := by
  unfold cacheGet
  rw [h]

/-- The inner fold of `refresh_cache`'s negative-cache loop completes when every
re-checked key now exists in the store, collecting exactly those keys for
removal and caching their store values. -/
theorem negFold_done (s2 : String) (store0 : List ConfigEntry) (ks : List String) :
    ∀ (c : ConfigState) (rem0 : List String),
    c.store = store0 → c.negLockHeld = false →
    (∀ k2 ∈ ks, (cfgStoreLookup store0 s2 k2).isSome = true) →
    ∃ c2, ks.foldl (negRecheckStep s2) (Except.ok (c, rem0)) = .ok (c2, rem0 ++ ks)
      ∧ c2.store = store0 ∧ c2.negLockHeld = false ∧ c2.neg = c.neg
      ∧ (∀ sx kx,
          (sx = s2 ∧ kx ∈ ks → cacheGet c2 sx kx = cfgStoreLookup store0 sx kx)
          ∧ (¬(sx = s2 ∧ kx ∈ ks) → cacheGet c2 sx kx = cacheGet c sx kx)) := by
  induction ks with
  | nil =>
    intro c rem0 hst hlk hks
    exact ⟨c, by simp, hst, hlk, rfl,
      fun sx kx => ⟨fun h => absurd h.2 (by simp), fun _ => rfl⟩⟩
  | cons k2 ks ih =>
    intro c rem0 hst hlk hks
    obtain ⟨e2, hS⟩ := Option.isSome_iff_exists.mp (hks k2 (by simp))
    have hS1 : cfgStoreLookup ({ c with negLockHeld := true } : ConfigState).store s2 k2
        = some e2 := by
      rw [show ({ c with negLockHeld := true } : ConfigState).store = c.store from rfl, hst]
      exact hS
    have hstep : negRecheckStep s2 (Except.ok (c, rem0)) k2
        = Except.ok ({ c with
            cache := (aset c.cache s2 (aset ((alookup c.cache s2).getD []) k2 e2)),
            negLockHeld := false }, rem0 ++ [k2]) := by
      simp [negRecheckStep, hlk, retrieveConfig_hit hS1]
    obtain ⟨c2, hfold, hst2, hlk2, hneg2, hcache2⟩ :=
      ih { c with
            cache := (aset c.cache s2 (aset ((alookup c.cache s2).getD []) k2 e2)),
            negLockHeld := false }
        (rem0 ++ [k2]) hst rfl (fun k3 hk3 => hks k3 (by simp [hk3]))
    refine ⟨c2, ?_, hst2, hlk2, hneg2, ?_⟩
    · rw [List.foldl_cons, hstep, hfold]
      simp
    · intro sx kx
      have hup : ({ c with
          cache := (aset c.cache s2 (aset ((alookup c.cache s2).getD []) k2 e2)),
          negLockHeld := false } : ConfigState).cache
        = ({ c with
          cache := (aset c.cache s2 (aset ((alookup c.cache s2).getD []) k2 e2))
            } : ConfigState).cache := rfl
      constructor
      · rintro ⟨hsx, hkx⟩
        subst hsx
        by_cases hk : kx ∈ ks
        · exact (hcache2 sx kx).1 ⟨rfl, hk⟩
        · have hkk2 : kx = k2 := by
            rcases List.mem_cons.mp hkx with h | h
            · exact h
            · exact absurd h hk
          subst hkk2
          rw [(hcache2 sx kx).2 (fun hcon => hk hcon.2)]
          rw [cacheGet_eq_of_cache sx kx hup]
          rw [cacheGet_update_hit c sx kx e2]
          exact hS.symm
      · intro hcon
        have hnotail : ¬(sx = s2 ∧ kx ∈ ks) := fun h => hcon ⟨h.1, by simp [h.2]⟩
        have hnothead : ¬(sx = s2 ∧ kx = k2) := fun h => hcon ⟨h.1, by simp [h.2]⟩
        rw [(hcache2 sx kx).2 hnotail]
        rw [cacheGet_eq_of_cache sx kx hup]
        exact cacheGet_update_other c s2 k2 e2 sx kx hnothead

/-- `refresh_cache`'s negative-cache re-check for one server completes when all
its keys now exist, removing exactly those keys and caching their values. -/
theorem refreshNegServer_done (c : ConfigState) (s2 : String) (ks : List String)
    (store0 : List ConfigEntry)
    (hst : c.store = store0) (hlk : c.negLockHeld = false)
    (hks : ∀ k2 ∈ ks, (cfgStoreLookup store0 s2 k2).isSome = true) :
    ∃ c2, refreshNegServer c s2 ks = .done c2
      ∧ c2.store = store0 ∧ c2.negLockHeld = false
      ∧ c2.neg = aset c.neg s2 (((alookup c.neg s2).getD []).filter
          (fun kx => !ks.contains kx))
      ∧ (∀ sx kx,
          (sx = s2 ∧ kx ∈ ks → cacheGet c2 sx kx = cfgStoreLookup store0 sx kx)
          ∧ (¬(sx = s2 ∧ kx ∈ ks) → cacheGet c2 sx kx = cacheGet c sx kx)) := by
  obtain ⟨cF, hfold, hstF, hlkF, hnegF, hcacheF⟩ :=
    negFold_done s2 store0 ks c [] hst hlk hks
  refine ⟨{ cF with neg := aset cF.neg s2 (((alookup cF.neg s2).getD []).filter
      (fun kx => !ks.contains kx)) }, ?_, hstF, hlkF, ?_, ?_⟩
  · unfold refreshNegServer
    rw [hfold]
    simp
  · rw [hnegF]
  · intro sx kx
    have htr : ({ cF with neg := aset cF.neg s2 (((alookup cF.neg s2).getD []).filter
        (fun kx => !ks.contains kx)) } : ConfigState).cache = cF.cache := rfl
    exact ⟨fun h => by rw [cacheGet_eq_of_cache sx kx htr]; exact (hcacheF sx kx).1 h,
           fun h => by rw [cacheGet_eq_of_cache sx kx htr]; exact (hcacheF sx kx).2 h⟩

/-- After one server's phase-2 re-check, a (server, key) pair is out of the
negative cache if it was out before, or if it was just re-checked. -/
theorem negHas_after_server (c cS : ConfigState) (sv1 : String) (ks : List String)
    (s k : String)
    (hneg : cS.neg = aset c.neg sv1 (((alookup c.neg sv1).getD []).filter
      (fun kx => !ks.contains kx)))
    (h : negHas c s k = false ∨ (s = sv1 ∧ ks.contains k = true)) :
    negHas cS s k = false := by
  unfold negHas
  rw [hneg]
  by_cases hssv : s = sv1
  · subst hssv
    rw [alookup_aset_self]
    rcases h with hn | hkin
    · unfold negHas at hn
      cases hks0 : alookup c.neg s with
      | some ks0 =>
        rw [hks0] at hn
        simp only [hks0, Option.getD_some]
        exact contains_filter_of_not_contains ks0 ks k hn
      | none =>
        simp [hks0]
    · exact contains_filter_not_mem _ ks k hkin.2
  · rw [alookup_aset_ne _ _ _ _ hssv]
    rcases h with hn | hss
    · unfold negHas at hn
      exact hn
    · exact absurd hss.1 hssv

/-- Phase 2 of `refresh_cache` completes when every negative-cached key of every
listed server now exists in the store; the target (server, key) pair becomes
cached and leaves the negative cache once its server entry is processed. -/
theorem phase2Fold_done (s k : String) (e : ConfigEntry) (store0 : List ConfigEntry)
    (hk : cfgStoreLookup store0 s k = some e) (l : List (String × List String)) :
    ∀ (c : ConfigState),
    c.store = store0 → c.negLockHeld = false →
    (∀ sv ∈ l, ∀ k2 ∈ sv.2, (cfgStoreLookup store0 sv.1 k2).isSome = true) →
    ∃ c2, l.foldl phase2Step (.done c) = .done c2
      ∧ c2.store = store0 ∧ c2.negLockHeld = false
      ∧ ((cacheGet c s k = some e ∧ negHas c s k = false) →
          (cacheGet c2 s k = some e ∧ negHas c2 s k = false))
      ∧ (∀ sv ∈ l, sv.1 = s → k ∈ sv.2 →
          (cacheGet c2 s k = some e ∧ negHas c2 s k = false)) := by
  induction l with
  | nil =>
    intro c hst hlk _
    exact ⟨c, rfl, hst, hlk, id, fun sv hsv => absurd hsv (by simp)⟩
  | cons sv l ih =>
    intro c hst hlk hall
    obtain ⟨cS, hS, hstS, hlkS, hnegS, hcacheS⟩ :=
      refreshNegServer_done c sv.1 sv.2 store0 hst hlk (hall sv (by simp))
    have hA : (cacheGet c s k = some e ∧ negHas c s k = false) →
        (cacheGet cS s k = some e ∧ negHas cS s k = false) := by
      rintro ⟨hc, hn⟩
      constructor
      · by_cases hcov : s = sv.1 ∧ k ∈ sv.2
        · rw [(hcacheS s k).1 hcov]
          exact hk
        · rw [(hcacheS s k).2 hcov]
          exact hc
      · exact negHas_after_server c cS sv.1 sv.2 s k hnegS (Or.inl hn)
    have hEst : sv.1 = s → k ∈ sv.2 →
        (cacheGet cS s k = some e ∧ negHas cS s k = false) := by
      intro hsv1 hkin
      constructor
      · rw [(hcacheS s k).1 ⟨hsv1.symm, hkin⟩]
        exact hk
      · exact negHas_after_server c cS sv.1 sv.2 s k hnegS
          (Or.inr ⟨hsv1.symm, (contains_iff_mem_str sv.2 k).mpr hkin⟩)
    obtain ⟨c2, hfold2, hst2, hlk2, hpres2, hest2⟩ :=
      ih cS hstS hlkS (fun sv2 hsv2 => hall sv2 (by simp [hsv2]))
    refine ⟨c2, ?_, hst2, hlk2, fun h => hpres2 (hA h), ?_⟩
    · rw [List.foldl_cons,
        show phase2Step (.done c) sv = .done cS from by simp [phase2Step, hS]]
      exact hfold2
    · intro sv2 hsv2 h1 h2
      rcases List.mem_cons.mp hsv2 with hh | hmem
      · subst hh
        exact hpres2 (hEst h1 h2)
      · exact hest2 sv2 hmem h1 h2

/-- The inner fold of phase 1 completes when every re-validated key still exists
in the store, leaving the negative cache untouched and every cache key outside
the re-validated set unchanged. -/
theorem phase1Inner_done (s2 : String) (store0 : List ConfigEntry)
    (kvs : List (String × ConfigEntry)) :
    ∀ (c : ConfigState),
    c.store = store0 → c.negLockHeld = false →
    (∀ kv ∈ kvs, (cfgStoreLookup store0 s2 kv.1).isSome = true) →
    ∃ c2, kvs.foldl (phase1KeyStep s2) (.done c) = .done c2
      ∧ c2.store = store0 ∧ c2.negLockHeld = false ∧ c2.neg = c.neg
      ∧ (∀ sx kx, ¬(sx = s2 ∧ (∃ kv ∈ kvs, kv.1 = kx)) →
          cacheGet c2 sx kx = cacheGet c sx kx) := by
  induction kvs with
  | nil =>
    intro c hst hlk _
    exact ⟨c, rfl, hst, hlk, rfl, fun sx kx _ => rfl⟩
  | cons kv kvs ih =>
    intro c hst hlk hks
    obtain ⟨e2, hS⟩ := Option.isSome_iff_exists.mp (hks kv (by simp))
    have hS0 : cfgStoreLookup c.store s2 kv.1 = some e2 := by rw [hst]; exact hS
    have hstep : phase1KeyStep s2 (.done c) kv
        = .done { c with cache := (aset c.cache s2
            (aset ((alookup c.cache s2).getD []) kv.1 e2)) } := by
      simp [phase1KeyStep, retrieveConfig_hit hS0]
    obtain ⟨c2, hfold, hst2, hlk2, hneg2, hcache2⟩ :=
      ih { c with cache := (aset c.cache s2 (aset ((alookup c.cache s2).getD []) kv.1 e2)) }
        hst hlk (fun kv2 hkv2 => hks kv2 (by simp [hkv2]))
    refine ⟨c2, ?_, hst2, hlk2, hneg2, ?_⟩
    · rw [List.foldl_cons, hstep]
      exact hfold
    · intro sx kx hnc
      have hnotail : ¬(sx = s2 ∧ ∃ kv2 ∈ kvs, kv2.1 = kx) := by
        rintro ⟨h1, kv2, h2, h3⟩
        exact hnc ⟨h1, kv2, by simp [h2], h3⟩
      have hnothead : ¬(sx = s2 ∧ kx = kv.1) := by
        rintro ⟨h1, h2⟩
        exact hnc ⟨h1, kv, by simp, h2.symm⟩
      rw [hcache2 sx kx hnotail]
      exact cacheGet_update_other c s2 kv.1 e2 sx kx hnothead

/-- Phase 1 of `refresh_cache` completes when every cached key still exists,
leaving the negative cache untouched and uncached keys uncached. -/
theorem phase1Fold_done (store0 : List ConfigEntry)
    (l : List (String × List (String × ConfigEntry))) :
    ∀ (c : ConfigState),
    c.store = store0 → c.negLockHeld = false →
    (∀ sv ∈ l, ∀ kv ∈ sv.2, (cfgStoreLookup store0 sv.1 kv.1).isSome = true) →
    ∃ c1, l.foldl phase1ServerStep (.done c) = .done c1
      ∧ c1.store = store0 ∧ c1.negLockHeld = false ∧ c1.neg = c.neg
      ∧ (∀ sx kx, ¬(∃ sv ∈ l, sv.1 = sx ∧ ∃ kv ∈ sv.2, kv.1 = kx) →
          cacheGet c1 sx kx = cacheGet c sx kx) := by
  induction l with
  | nil =>
    intro c hst hlk _
    exact ⟨c, rfl, hst, hlk, rfl, fun sx kx _ => rfl⟩
  | cons sv l ih =>
    intro c hst hlk hall
    obtain ⟨cS, hSfold, hstS, hlkS, hnegS, hcacheS⟩ :=
      phase1Inner_done sv.1 store0 sv.2 c hst hlk (hall sv (by simp))
    obtain ⟨c1, hfold, hst1, hlk1, hneg1, hcache1⟩ :=
      ih cS hstS hlkS (fun sv2 hsv2 => hall sv2 (by simp [hsv2]))
    refine ⟨c1, ?_, hst1, hlk1, hneg1.trans hnegS, ?_⟩
    · rw [List.foldl_cons,
        show phase1ServerStep (.done c) sv = .done cS from by
          simp only [phase1ServerStep]
          exact hSfold]
      exact hfold
    · intro sx kx hnc
      have hnotail : ¬(∃ sv2 ∈ l, sv2.1 = sx ∧ ∃ kv ∈ sv2.2, kv.1 = kx) := by
        rintro ⟨sv2, h1, h2⟩
        exact hnc ⟨sv2, by simp [h1], h2⟩
      have hnothead : ¬(sx = sv.1 ∧ ∃ kv ∈ sv.2, kv.1 = kx) := by
        rintro ⟨h1, h2⟩
        exact hnc ⟨sv, by simp, h1.symm, h2⟩
      rw [hcache1 sx kx hnotail]
      exact hcacheS sx kx hnothead

theorem alookup_some_mem {β : Type} {m : List (String × β)} {s : String} {v : β}
    (h : alookup m s = some v) : ∃ p ∈ m, p.1 = s ∧ p.2 = v := by
  unfold alookup at h
  cases hf : m.find? (fun p => p.1 == s) with
  | none => rw [hf] at h; exact Option.noConfusion h
  | some p =>
    rw [hf] at h
    refine ⟨p, List.mem_of_find?_eq_some hf, ?_, ?_⟩
    · have := List.find?_some hf
      exact beq_iff_eq.mp this
    · exact Option.some.inj h

theorem alookup_eq_of_mem_nodup {β : Type} {m : List (String × β)} {p : String × β}
    (hnd : (m.map (fun q => q.1)).Nodup) (hm : p ∈ m) : alookup m p.1 = some p.2 := by
  induction m with
  | nil => cases hm
  | cons q m ih =>
    rcases List.mem_cons.mp hm with hh | hmem
    · subst hh
      unfold alookup
      rw [List.find?_cons_of_pos _ (by simp)]
      rfl
    · have hq : q.1 ≠ p.1 := by
        intro hqe
        have : p.1 ∈ m.map (fun q => q.1) := List.mem_map.mpr ⟨p, hmem, rfl⟩
        rw [← hqe] at this
        exact (List.nodup_cons.mp (by simpa using hnd)).1 this
      unfold alookup
      rw [List.find?_cons_of_neg _ (by simp [hq])]
      exact ih (List.nodup_cons.mp (by simpa using hnd)).2 hmem

/-- C9 counterexample: with one still-absent key ("absent") in the negative
cache ahead of the newly added key, `refresh_cache` deadlocks on its own
non-reentrant negative-cache lock inside the phase-2 re-check, so the run
never completes and the now-existing key "new_key" is never removed from the
negative cache even though the store contains its entry. -/
theorem c9_counterexample_refresh_blocks :
    refreshCache cfgPoisoned
      = CfgRefreshResult.blocked { cfgPoisoned with negLockHeld := true }
    ∧ cfgStoreLookup cfgPoisoned.store "g1" "new_key" = some ⟨"g1", "new_key", "ch42"⟩
    ∧ negHas { cfgPoisoned with negLockHeld := true } "g1" "new_key" = true := by
  exact ⟨by decide, by decide, by decide⟩

/-- C9 (amended): provided every already-cached config key still exists in the
store and every negative-cached key now exists there (otherwise `refresh_cache`
deadlocks on its negative-cache lock), the scheduled refresh completes without
any explicit cache-clear call and makes store-added entries visible: the
(server, key) pair of a newly added `ConfigEntry` leaves the negative cache and
`get_config` then serves the new entry, while the reaction-role refresh re-lists
watched message ids so a reaction on the new mapping's message is watched and
`get_reaction_role` fetches the new mapping lazily from the store. -/
theorem c9_refresh_makes_new_entries_visible
    (st : BetaState) (s k : String) (e : ConfigEntry) (rr : ReactionRole)
    (hlk : st.cfg.negLockHeld = false)
    (hk : cfgStoreLookup st.cfg.store s k = some e)
    (hneg : negHas st.cfg s k = true)
    (hcached : ∀ sv ∈ st.cfg.cache, ∀ kv ∈ sv.2,
      (cfgStoreLookup st.cfg.store sv.1 kv.1).isSome = true)
    (hnegall : ∀ sv ∈ st.cfg.neg, ∀ k2 ∈ sv.2,
      (cfgStoreLookup st.cfg.store sv.1 k2).isSome = true)
    (hrr : lookupStoreRR st.rrStore rr.serverId rr.messageId rr.reactionName = some rr)
    (hrrc : rrCacheGet st.rrCache rr.serverId rr.messageId rr.reactionName = none) :
    (∃ cs1, refreshCache st.cfg = .done cs1
      ∧ negHas cs1 s k = false
      ∧ getConfigC cs1 s k = some (cs1, some e))
    ∧ rr.messageId ∈ (refreshReactionRoleCaches st).1.watched
    ∧ (getReactionRole (refreshReactionRoleCaches st).1 rr.serverId rr.messageId
        rr.reactionName).2.2 = some rr := by
  obtain ⟨c1, hP1, hst1, hlk1, hneg1, _⟩ :=
    phase1Fold_done st.cfg.store st.cfg.cache st.cfg rfl hlk hcached
  obtain ⟨c2, hP2, hst2, hlk2, _, hest⟩ :=
    phase2Fold_done s k e st.cfg.store hk st.cfg.neg c1 hst1 hlk1 hnegall
  have hrfc : refreshCache st.cfg = .done c2 := by
    have hP1a : refreshPhase1 st.cfg = .done c1 := hP1
    unfold refreshCache
    rw [hP1a]
    show refreshPhase2 c1 = .done c2
    unfold refreshPhase2
    rw [hneg1]
    exact hP2
  have hnegmem : ∃ ks0, alookup st.cfg.neg s = some ks0 ∧ ks0.contains k = true := by
    unfold negHas at hneg
    cases hks0 : alookup st.cfg.neg s with
    | none => rw [hks0] at hneg; exact Bool.noConfusion hneg
    | some ks0 => rw [hks0] at hneg; exact ⟨ks0, rfl, hneg⟩
  obtain ⟨ks0, hks0, hkin⟩ := hnegmem
  obtain ⟨p, hpmem, hp1, hp2⟩ := alookup_some_mem hks0
  have hA := hest p hpmem hp1 (by rw [hp2]; exact (contains_iff_mem_str ks0 k).mp hkin)
  have hmemrr : rr ∈ st.rrStore := by
    unfold lookupStoreRR at hrr
    cases hl : st.rrStore.filter (fun x => x.serverId == rr.serverId
        && x.messageId == rr.messageId && x.reactionName == rr.reactionName) with
    | nil =>
      rw [hl] at hrr
      exact Option.noConfusion hrr
    | cons a t =>
      rw [hl] at hrr
      have ha : a = rr := Option.some.inj hrr
      have hmem : a ∈ st.rrStore.filter (fun x => x.serverId == rr.serverId
          && x.messageId == rr.messageId && x.reactionName == rr.reactionName) := by
        rw [hl]
        exact List.mem_cons_self a t
      exact ha ▸ (List.mem_filter.mp hmem).1
  have hw : (refreshReactionRoleCaches st).1.watched
      = st.rrStore.map (fun r => r.messageId) := rfl
  have hgrr : (getReactionRole (refreshReactionRoleCaches st).1 rr.serverId rr.messageId
      rr.reactionName).2.2 = some rr := by
    have h1 : rrCacheGet (refreshReactionRoleCaches st).1.rrCache rr.serverId
        rr.messageId rr.reactionName = none := hrrc
    have h2 : lookupStoreRR (refreshReactionRoleCaches st).1.rrStore rr.serverId
        rr.messageId rr.reactionName = some rr := hrr
    unfold getReactionRole
    rw [h1, h2]
  refine ⟨⟨c2, hrfc, hA.2, ?_⟩, ?_, hgrr⟩
  · unfold getConfigC
    rw [hlk2, hA.2]
    simp [hA.1]
  · rw [hw]
    exact List.mem_map.mpr ⟨rr, hmemrr, rfl⟩

/-- C9 witness: the concrete refresh scenario satisfies every hypothesis, and
the refresh makes both the new config entry and the new reaction role
visible. -/
theorem c9_refresh_makes_new_entries_visible_witness :
    (∃ cs1, refreshCache stRefresh.cfg = .done cs1
      ∧ negHas cs1 "g1" "new_key" = false
      ∧ getConfigC cs1 "g1" "new_key" = some (cs1, some cfgNewEntry))
    ∧ rrNew.messageId ∈ (refreshReactionRoleCaches stRefresh).1.watched
    ∧ (getReactionRole (refreshReactionRoleCaches stRefresh).1 rrNew.serverId
        rrNew.messageId rrNew.reactionName).2.2 = some rrNew :=
  c9_refresh_makes_new_entries_visible stRefresh "g1" "new_key" cfgNewEntry rrNew
    (by decide) (by decide) (by decide) (by decide) (by decide) (by decide) (by decide)

end Botto
